import Mathlib

/-!
# macloader: classification of the MAC address half and provisioning of the CID file

A shallow embedding of `macloader/macloader.c`.

* A C `char` array is the list of its byte values (`List Nat`).  Bytes past the end of the
  list read as NUL (a zero-initialised tail, or the terminator of a string literal), and the
  C string held by an array is the run of bytes before its first NUL (`cstr`).
* The libc and kernel calls the program makes are functions of an explicit environment `Env`
  that fixes what each call returns, and of a `World` that carries the CID file and the trace
  of calls made so far.
* The constants of the two headers the program includes (`lenovo_macloader.h`,
  `macaddr_mappings.h`) are the fields of `Header`.  The three path constants name three
  different files: the MAC source, the CID file and the driver control path.
* A call is recorded in the trace with its arguments and result.
* `main` closes the MAC source handle a second time at `out`.  That call has undefined
  behaviour; the environment says whether it returns without further effect or ends the
  run with an abort (`Env.reclose_aborts`), and `Result.aborted` records the latter.  The
  statements about a run that exits 0, and about the content of a CID file the run wrote,
  are made for runs that are not aborted.
-/

set_option autoImplicit false

namespace Macloader

/-! ## C strings -/

/-- Byte values of a string literal (without the terminating NUL). -/
def bytes (s : String) : List Nat := s.toList.map Char.toNat

/-- The C string held by a `char` array: the bytes before the first NUL. -/
def cstr : List Nat → List Nat
  | [] => []
  | c :: s => if c = 0 then [] else c :: cstr s

/-- The libc `strlen`. -/
def strlen (s : List Nat) : Nat := (cstr s).length

/-- The libc `tolower` in the C locale. -/
def tolower (c : Nat) : Nat := if 65 ≤ c ∧ c ≤ 90 then c + 32 else c

/-- The libc `strcasecmp`: walks both arrays while the lowered bytes agree, returns 0 when the
agreeing byte is NUL, and the difference of the lowered bytes at the first disagreement. -/
def strcasecmp : List Nat → List Nat → Int
  | [], s2 => (tolower 0 : Int) - (tolower (s2.headD 0) : Int)
  | c1 :: s1, s2 =>
    if tolower c1 = tolower (s2.headD 0) then
      if c1 = 0 then 0 else strcasecmp s1 s2.tail
    else (tolower c1 : Int) - (tolower (s2.headD 0) : Int)

/-! ## The range table (`macaddr_mappings.h`) -/

/-- Modelled from the spec: `enum Type` of the missing header `macaddr_mappings.h`, the vendor
identifier: one of MURATA, SEMCOSH, SEMCO3RD, SEMCO, WISOL, or NONE. -/
inductive CidType
  | NONE
  | MURATA
  | SEMCOSH
  | SEMCO3RD
  | SEMCO
  | WISOL
  deriving DecidableEq, Repr

/-- Modelled from the spec: one element of `all_ranges` (missing header `macaddr_mappings.h`), a
vendor identifier `type` and the rows `macaddrs[j]` in declared order.  The C array has
`MAX_RANGE_ENTRIES` rows; rows after the listed ones are zero-filled, so they read as the empty
string. -/
structure VendorRange where
  type : CidType
  macaddrs : List (List Nat)
  deriving DecidableEq, Repr

/-- Modelled from the spec: the constants of the missing headers `lenovo_macloader.h` and
`macaddr_mappings.h` that the program uses.  `all_ranges` is the array the outer loop walks;
`WIFI_DRIVER_NVRAM_PATH` is `none` when the macro is `NULL`. -/
structure Header where
  RANGE_ENTRY_LEN : Nat
  MAX_RANGE_ENTRIES : Nat
  all_ranges : List VendorRange
  WIFI_DRIVER_NVRAM_PATH : Option (List Nat)

/-- Modelled from the spec: `TYPE_MAX` of the missing header, the number of elements of the
array `all_ranges`. -/
def Header.TYPE_MAX (h : Header) : Nat := h.all_ranges.length

/-- The inner loop of `classify_macaddr_half`, `for (j ...; j < MAX_RANGE_ENTRIES; j++)`, with
`fuel = MAX_RANGE_ENTRIES - j` iterations left.  `true` when the `goto exit` is taken. -/
def scan_macaddrs (macaddr_half : List Nat) (macaddrs : List (List Nat)) : Nat → Nat → Bool
  | 0, _ => false
  | fuel + 1, j =>
    let macaddr := macaddrs.getD j []
    if macaddr.headD 0 = 0 then false
    else if strcasecmp macaddr_half macaddr = 0 then true
    else scan_macaddrs macaddr_half macaddrs fuel (j + 1)

/-- The outer loop of `classify_macaddr_half`, `for (i ...; i < TYPE_MAX; i++)`, with
`fuel = TYPE_MAX - i` iterations left.  The result is the value of `type` at `exit`. -/
def scan_ranges (h : Header) (macaddr_half : List Nat) : Nat → Nat → CidType
  | 0, _ => CidType.NONE
  | fuel + 1, i =>
    match h.all_ranges[i]? with
    | none => CidType.NONE
    | some r =>
      if scan_macaddrs macaddr_half r.macaddrs h.MAX_RANGE_ENTRIES 0 then r.type
      else scan_ranges h macaddr_half fuel (i + 1)

/-- The function `classify_macaddr_half` of `macloader.c`. -/
def classify_macaddr_half (h : Header) (macaddr_half : List Nat) : CidType :=
  scan_ranges h macaddr_half h.TYPE_MAX 0

/-! ## The find-first reference of the classifier (from the specification) -/

/-- Case-insensitive equality of two C strings: equal after ASCII case folding. -/
def caseless_eq (a b : List Nat) : Bool := (cstr a).map tolower == (cstr b).map tolower

/-- The entries of a vendor in declared order, up to (not including) the first empty
sentinel entry. -/
def listed (h : Header) (r : VendorRange) : List (List Nat) :=
  (r.macaddrs.take h.MAX_RANGE_ENTRIES).takeWhile (fun e => cstr e != [])

/-- The find-first reference: the vendor type of the first listed entry, in declared order of
vendors and of their entries, that equals the input case-insensitively; NONE without one. -/
def classify_reference (h : Header) (input : List Nat) : CidType :=
  match ((h.all_ranges.map (fun r => (listed h r).map (fun e => (r.type, e)))).flatten).find?
      (fun p => caseless_eq input p.2) with
  | some p => p.1
  | none => CidType.NONE

/-! ## The environment of a run -/

/-- The `struct passwd` fields the program reads. -/
structure Passwd where
  pw_uid : Nat
  pw_gid : Nat
  deriving DecidableEq, Repr

/-- The file at `CID_PATH`: its content, mode bits and owner. -/
structure CidFile where
  content : List Nat
  mode : Nat
  uid : Nat
  gid : Nat
  deriving DecidableEq, Repr

/-- What the calls of one run return.  Each field is the outcome of the call if the run makes
it; `TEMP_FAILURE_RETRY` is taken at its final result. -/
structure Env where
  /-- Content of the file at `MACADDR_PATH`; `none` when `fopen` of it fails. -/
  macaddr_file : Option (List Nat)
  /-- Whether reading from that file fails with an error. -/
  fgets_error : Bool
  /-- The file at `CID_PATH` before the run; `none` when there is none. -/
  cid_file : Option CidFile
  /-- Whether `remove` of an existing file at `CID_PATH` succeeds. -/
  remove_ok : Bool
  /-- Whether `fopen(CID_PATH, "w")` succeeds. -/
  fopen_cid_ok : Bool
  /-- Mode and owner that a newly created file gets. -/
  create_mode : Nat
  create_uid : Nat
  create_gid : Nat
  /-- Return value of `fputs` on the CID file. -/
  fputs_ret : Int
  /-- Return value of `fchmod` on the CID file. -/
  fchmod_ret : Int
  /-- Result of `getpwnam("system")`; `none` for a null pointer. -/
  system_pwd : Option Passwd
  /-- Return value of `fchown` on the CID file. -/
  fchown_ret : Int
  /-- Whether `stat` of a (non-empty) path succeeds: a file of that name exists. -/
  file_exists : List Nat → Bool
  /-- Descriptor that `open(WIFI_DRIVER_NVRAM_PATH_PARAM, O_WRONLY)` returns; `none` when it
  fails (the call then returns -1). -/
  open_param : Option Nat
  /-- Return value of the `write` of the base calibration path. -/
  write_base_ret : Int
  /-- Return value of the `write` of the vendor-suffixed calibration path. -/
  write_suffixed_ret : Int
  /-- Whether the second `fclose` of the MAC source handle at `out`, whose behaviour is
  undefined, ends the run with an abort instead of returning. -/
  reclose_aborts : Bool
  /-- Whether, in a run ended by that abort, the string buffered by `fputs` still reaches the
  CID file. -/
  abort_flushes : Bool

/-- The calls a run makes, named by call site, with their arguments and results. -/
inductive Event
  | fopen_mac (ok : Bool)
  | fgets_mac (ok : Bool)
  | fclose_mac
  | remove_cid (ret : Int)
  | fopen_cid (ok : Bool)
  | fputs_cid (s : List Nat) (ret : Int)
  | fchmod_cid (mode : Nat) (ret : Int)
  | getpwnam (name : List Nat) (found : Bool)
  | fchown_cid (uid gid : Nat) (ret : Int)
  | stat_base (path : List Nat) (ret : Int)
  | open_param (fd : Int)
  | write_base (buf : List Nat) (len : Int) (ret : Int)
  | stat_suffixed (path : List Nat) (ret : Int)
  | write_suffixed (buf : List Nat) (len : Int) (ret : Int)
  | close_param
  | fclose_cid
  deriving DecidableEq, Repr

/-- The state a run threads through its calls: the CID file and the calls made so far. -/
structure World where
  cid : Option CidFile
  trace : List Event

/-- Record a call. -/
def World.log (w : World) (e : Event) : World := { w with trace := w.trace ++ [e] }

/-- What a run leaves behind: its exit status (the return value of `main`, or the abort
status when the run is ended by an abort), the CID file, the calls made, and whether the run
was ended by an abort. -/
structure Result where
  ret : Int
  cid : Option CidFile
  trace : List Event
  aborted : Bool

/-! ## The libc calls -/

/-- The bytes `fgets` stores from a stream when it may store at most `k`: it stops after a
newline (byte 10), at the end of the stream, or after `k` bytes. -/
def read_line : Nat → List Nat → List Nat
  | 0, _ => []
  | _ + 1, [] => []
  | k + 1, c :: rest => if c = 10 then [c] else c :: read_line k rest

/-- The libc `fgets(buf, n, stream)`: the bytes stored before the terminating NUL, or `none`
for a null pointer (no room, a read error, or end of file before any byte). -/
def fgets (n : Nat) (stream : List Nat) (error : Bool) : Option (List Nat) :=
  if n = 0 ∨ error then none
  else if 1 < n ∧ stream = [] then none
  else some (read_line (n - 1) stream)

/-- The libc `stat`: 0 when the path names an existing file, -1 otherwise; the empty path
names no file (`stat` fails on it with ENOENT). -/
def stat (env : Env) (path : List Nat) : Int :=
  if cstr path = [] then -1 else if env.file_exists (cstr path) then 0 else -1

/-- The libc `snprintf(buf, size, "%s_%s", a, b)`: the string left in `buf`, cut to
`size - 1` bytes. -/
def snprintf (size : Nat) (a b : List Nat) : List Nat :=
  (cstr a ++ [95] ++ cstr b).take (size - 1)

/-- The libc `remove(CID_PATH)`; its return value is -1 when there is no file or the removal
fails. -/
def remove (env : Env) (w : World) : World :=
  let ret : Int := if w.cid.isSome ∧ env.remove_ok then 0 else -1
  { cid := if ret = 0 then none else w.cid, trace := w.trace ++ [Event.remove_cid ret] }

/-- A successful `fopen(CID_PATH, "w")`: the file is created, or truncated when it exists. -/
def fopen_w (env : Env) (w : World) : World :=
  let f : CidFile := match w.cid with
    | some old => { old with content := [] }
    | none => { content := [], mode := env.create_mode, uid := env.create_uid,
                gid := env.create_gid }
  { cid := some f, trace := w.trace ++ [Event.fopen_cid true] }

/-- The libc `fputs(s, cidfile)`: a non-negative return value means the string was written
(the stream is flushed by the `fclose` at `out`). -/
def fputs (env : Env) (s : List Nat) (w : World) : World :=
  let cid := if 0 ≤ env.fputs_ret then
      w.cid.map (fun f => { f with content := f.content ++ cstr s })
    else w.cid
  { cid := cid, trace := w.trace ++ [Event.fputs_cid s env.fputs_ret] }

/-- The libc `fchmod(fd, mode)` on the CID file. -/
def fchmod (env : Env) (mode : Nat) (w : World) : World :=
  let cid := if env.fchmod_ret = 0 then w.cid.map (fun f => { f with mode := mode }) else w.cid
  { cid := cid, trace := w.trace ++ [Event.fchmod_cid mode env.fchmod_ret] }

/-- The libc `fchown(fd, uid, gid)` on the CID file. -/
def fchown (env : Env) (uid gid : Nat) (w : World) : World :=
  let cid := if env.fchown_ret = 0 then
      w.cid.map (fun f => { f with uid := uid, gid := gid })
    else w.cid
  { cid := cid, trace := w.trace ++ [Event.fchown_cid uid gid env.fchown_ret] }

/-- The mode bit `S_IRUSR` of `sys/stat.h`: read by owner. -/
def S_IRUSR : Nat := 0o400

/-- The mode bit `S_IWUSR` of `sys/stat.h`: write by owner. -/
def S_IWUSR : Nat := 0o200

/-- The mode bit `S_IRGRP` of `sys/stat.h`: read by group. -/
def S_IRGRP : Nat := 0o040

/-- The mode bit `S_IROTH` of `sys/stat.h`: read by others. -/
def S_IROTH : Nat := 0o004

/-! ## The program -/

/-- The label `out` of `wifi_change_nvram_calibration`: the descriptor is closed unless it is
-1, and `ret` is returned. -/
def wifi_out (fd : Int) (ret : Int) (w : World) : Int × World :=
  (ret, if fd ≠ -1 then w.log Event.close_param else w)

/-- The function `wifi_change_nvram_calibration` of `macloader.c`; a null pointer argument is
`none`. -/
def wifi_change_nvram_calibration (env : Env) (nvram_file type : Option (List Nat))
    (w : World) : Int × World :=
  match nvram_file, type with
  | some nvram_file, some type =>
    let ret := stat env nvram_file
    let w := w.log (Event.stat_base nvram_file ret)
    if ret ≠ 0 then wifi_out (-1) (-1) w
    else
      let fd : Int := match env.open_param with
        | some d => (d : Int)
        | none => -1
      let w := w.log (Event.open_param fd)
      if fd < 0 then wifi_out fd (-1) w
      else
        let len : Int := (strlen nvram_file : Int) + 1
        let w := w.log (Event.write_base (cstr nvram_file ++ [0]) len env.write_base_ret)
        if env.write_base_ret ≠ len then wifi_out fd (-1) w
        else
          let nvram_str := snprintf 1024 nvram_file type
          let ret := stat env nvram_str
          let w := w.log (Event.stat_suffixed nvram_str ret)
          if ret ≠ 0 then wifi_out fd 0 w
          else
            let len : Int := (strlen nvram_str : Int) + 1
            let w := w.log
              (Event.write_suffixed (cstr nvram_str ++ [0]) len env.write_suffixed_ret)
            if env.write_suffixed_ret ≠ len then wifi_out fd 0 w
            else wifi_out fd 0 w
  | _, _ => wifi_out (-1) (-1) w

/-- The `switch` of `main`: the string of a vendor type; `none` is the `default` case. -/
def type_str : CidType → Option (List Nat)
  | CidType.MURATA => some (bytes "murata")
  | CidType.SEMCOSH => some (bytes "semcosh")
  | CidType.SEMCO3RD => some (bytes "semco3rd")
  | CidType.SEMCO => some (bytes "semco")
  | CidType.WISOL => some (bytes "wisol")
  | CidType.NONE => none

/-- The array `mac_addr_half[RANGE_ENTRY_LEN + 1] = {0}` of `main` after
`fgets(mac_addr_half, RANGE_ENTRY_LEN, file)`: the bytes stored, then NUL bytes up to the
size of the array.  `none` when `fgets` returns a null pointer. -/
def read_mac_addr_half (h : Header) (content : List Nat) (error : Bool) : Option (List Nat) :=
  (fgets h.RANGE_ENTRY_LEN content error).map
    (fun stored => stored ++ List.replicate (h.RANGE_ENTRY_LEN + 1 - stored.length) 0)

/-- The exit status of a run that is ended by an abort (SIGABRT), as a shell reports it. -/
def ABORT_STATUS : Int := 134

/-- The label `out` of `main`: `file` and `cidfile` are closed when they are not null, and
`ret` is returned.  `file` keeps its value after the `fclose` that follows `fgets`, so the
`fclose(file)` made here is a second close of a closed handle.  Its behaviour is undefined in
C: the environment says whether it returns or ends the run with an abort.  In an aborted run
the status is the abort status, not `ret`, and the string that `fputs` left in the buffer of
`cidfile` reaches the file only if the environment says so; the file, opened with "w", is
empty otherwise.  The trace lists the cleanup calls as the program text makes them. -/
def main_out (env : Env) (file cidfile : Bool) (ret : Int) (w : World) : Result :=
  let w := if file then w.log Event.fclose_mac else w
  let w := if cidfile then w.log Event.fclose_cid else w
  let aborted := file && env.reclose_aborts
  let lost := aborted && cidfile && !env.abort_flushes
  { ret := if aborted then ABORT_STATUS else ret,
    cid := if lost then w.cid.map (fun f => { f with content := [] }) else w.cid,
    trace := w.trace, aborted := aborted }

/-- The part of `main` after the `switch` (from the `fopen` of the CID file to the
label `out`), with `type_str` the string the `switch` chose. -/
def main_provision (h : Header) (env : Env) (type_str : List Nat) (w : World) : Result :=
  if env.fopen_cid_ok = false then main_out env true false (-1) (w.log (Event.fopen_cid false))
  else
    let w := fopen_w env w
    let w := fputs env type_str w
    if env.fputs_ret ≠ 0 then main_out env true true (-1) w
    else
      let amode := S_IRUSR ||| S_IWUSR ||| S_IRGRP ||| S_IROTH
      let w := fchmod env amode w
      if env.fchmod_ret ≠ 0 then main_out env true true (-1) w
      else
        let w := w.log (Event.getpwnam (bytes "system") env.system_pwd.isSome)
        match env.system_pwd with
        | none => main_out env true true (-1) w
        | some pwd =>
          let w := fchown env pwd.pw_uid pwd.pw_gid w
          if env.fchown_ret ≠ 0 then main_out env true true (-1) w
          else
            match h.WIFI_DRIVER_NVRAM_PATH with
            | none => main_out env true true 0 w
            | some nvram_file =>
              let r := wifi_change_nvram_calibration env (some nvram_file) (some type_str) w
              if r.1 ≠ 0 then main_out env true true (-1) r.2
              else main_out env true true r.1 r.2

/-- The function `main` of `macloader.c`. -/
def main (h : Header) (env : Env) : Result :=
  let w : World := { cid := env.cid_file, trace := [] }
  match env.macaddr_file with
  | none => main_out env false false (-1) (w.log (Event.fopen_mac false))
  | some content =>
    let w := w.log (Event.fopen_mac true)
    let str := read_mac_addr_half h content env.fgets_error
    let w := (w.log (Event.fgets_mac str.isSome)).log Event.fclose_mac
    match str with
    | none => main_out env true false (-1) w
    | some mac_addr_half =>
      let type := classify_macaddr_half h mac_addr_half
      if type = CidType.NONE then main_out env true false 0 (remove env w)
      else
        match type_str type with
        | none => main_out env true false (-1) w
        | some type_str => main_provision h env type_str w

/-! ## The states a run passes through -/

/-- The world after the MAC source was opened, read and closed. -/
def w_read (env : Env) : World :=
  { cid := env.cid_file,
    trace := [Event.fopen_mac true, Event.fgets_mac true, Event.fclose_mac] }

/-- The world after the CID file was opened and `fputs` was called on it. -/
def step_write (env : Env) (name : List Nat) (w : World) : World :=
  fputs env name (fopen_w env w)

/-- The world after the `fchmod` of the CID file. -/
def step_mode (env : Env) (name : List Nat) (w : World) : World :=
  fchmod env (S_IRUSR ||| S_IWUSR ||| S_IRGRP ||| S_IROTH) (step_write env name w)

/-- The world after the lookup of the `system` account. -/
def step_lookup (env : Env) (name : List Nat) (w : World) : World :=
  (step_mode env name w).log (Event.getpwnam (bytes "system") env.system_pwd.isSome)

/-- The world after the `fchown` of the CID file. -/
def step_own (env : Env) (name : List Nat) (pwd : Passwd) (w : World) : World :=
  fchown env pwd.pw_uid pwd.pw_gid (step_lookup env name w)

/-- The world after the `stat` of the base calibration file. -/
def wifi_stat (env : Env) (nv : List Nat) (w : World) : World :=
  w.log (Event.stat_base nv (stat env nv))

/-- The world after the `open` of the driver control path returned `fd`. -/
def wifi_open (env : Env) (nv : List Nat) (fd : Int) (w : World) : World :=
  (wifi_stat env nv w).log (Event.open_param fd)

/-- The world after the `write` of the base calibration path. -/
def wifi_write (env : Env) (nv : List Nat) (fd : Int) (w : World) : World :=
  (wifi_open env nv fd w).log
    (Event.write_base (cstr nv ++ [0]) ((strlen nv : Int) + 1) env.write_base_ret)

/-- The world after the `stat` of the vendor-suffixed calibration file. -/
def wifi_stat_suffixed (env : Env) (nv name : List Nat) (fd : Int) (w : World) : World :=
  (wifi_write env nv fd w).log
    (Event.stat_suffixed (snprintf 1024 nv name) (stat env (snprintf 1024 nv name)))

/-- The world after the `write` of the vendor-suffixed calibration path. -/
def wifi_write_suffixed (env : Env) (nv name : List Nat) (fd : Int) (w : World) : World :=
  (wifi_stat_suffixed env nv name fd w).log
    (Event.write_suffixed (cstr (snprintf 1024 nv name) ++ [0])
      ((strlen (snprintf 1024 nv name) : Int) + 1) env.write_suffixed_ret)

/-! ## Reading a run -/

/-- The six fatal failures the specification enumerates, as calls of the run that failed:
the MAC source cannot be opened or read, the CID file cannot be opened or written (`fputs`
returns a negative value), `fchmod` fails, the `system` account is not found, `fchown` fails,
the driver control path cannot be opened or the base calibration path is not written in
full. -/
def fatal_failure : Event → Bool
  | Event.fopen_mac ok => !ok
  | Event.fgets_mac ok => !ok
  | Event.fopen_cid ok => !ok
  | Event.fputs_cid _ ret => decide (ret < 0)
  | Event.fchmod_cid _ ret => decide (ret ≠ 0)
  | Event.getpwnam _ found => !found
  | Event.fchown_cid _ _ ret => decide (ret ≠ 0)
  | Event.open_param fd => decide (fd < 0)
  | Event.write_base _ len ret => decide (ret ≠ len)
  | _ => false

/-- An open, write, chmod, account lookup or chown of the run that failed: one of the fatal
failures, or a write of the vendor-suffixed calibration path that is not written in full. -/
def attempt_failed : Event → Bool
  | Event.write_suffixed _ len ret => decide (ret ≠ len)
  | e => fatal_failure e

/-- A `fputs` on the CID file that returned a positive value. -/
def cid_write_positive : Event → Bool
  | Event.fputs_cid _ ret => decide (0 < ret)
  | _ => false

/-- A `stat` of the base calibration file that failed. -/
def base_stat_failed : Event → Bool
  | Event.stat_base _ ret => decide (ret ≠ 0)
  | _ => false

/-- A call that changes the file system or the driver: removing, opening for writing or
writing the CID file, changing its mode or owner, writing to the driver control interface. -/
def is_mutation : Event → Bool
  | Event.remove_cid _ => true
  | Event.fopen_cid _ => true
  | Event.fputs_cid _ _ => true
  | Event.fchmod_cid _ _ => true
  | Event.fchown_cid _ _ _ => true
  | Event.write_base _ _ _ => true
  | Event.write_suffixed _ _ _ => true
  | _ => false

/-- An open of, or a write to, the driver control interface. -/
def touches_driver : Event → Bool
  | Event.open_param _ => true
  | Event.write_base _ _ _ => true
  | Event.write_suffixed _ _ _ => true
  | _ => false

/-- A write to the driver control interface. -/
def is_driver_write : Event → Bool
  | Event.write_base _ _ _ => true
  | Event.write_suffixed _ _ _ => true
  | _ => false

/-- A close of the MAC source file. -/
def closes_source : Event → Bool
  | Event.fclose_mac => true
  | _ => false

/-- A successful open of the CID file. -/
def cid_opened : Event → Bool
  | Event.fopen_cid ok => ok
  | _ => false

/-- A close of the CID file. -/
def closes_cid : Event → Bool
  | Event.fclose_cid => true
  | _ => false

/-- A successful open of the driver control path. -/
def driver_opened : Event → Bool
  | Event.open_param fd => decide (0 ≤ fd)
  | _ => false

/-- A close of the driver control descriptor. -/
def closes_driver : Event → Bool
  | Event.close_param => true
  | _ => false

/-- The lowercase name of a vendor, as the specification lists them. -/
def vendor_name : CidType → List Nat
  | CidType.MURATA => bytes "murata"
  | CidType.SEMCOSH => bytes "semcosh"
  | CidType.SEMCO3RD => bytes "semco3rd"
  | CidType.SEMCO => bytes "semco"
  | CidType.WISOL => bytes "wisol"
  | CidType.NONE => []

/-- The first line of a file, its terminating newline included when it has one. -/
def first_line : List Nat → List Nat
  | [] => []
  | c :: rest => if c = 10 then [c] else c :: first_line rest

/-- The type that the MAC address half read by a run classifies to; `none` when the MAC
source cannot be opened or read. -/
def classified (h : Header) (env : Env) : Option CidType :=
  match env.macaddr_file with
  | none => none
  | some content =>
    (read_mac_addr_half h content env.fgets_error).map (classify_macaddr_half h)

/-! ## Concrete tables and runs -/

/-- A table with WISOL listing "AA:BB:CC", and no base calibration path configured. -/
def hdr_wisol : Header :=
  { RANGE_ENTRY_LEN := 9, MAX_RANGE_ENTRIES := 4,
    all_ranges := [{ type := CidType.MURATA, macaddrs := [bytes "00:11:22"] },
                   { type := CidType.WISOL, macaddrs := [bytes "AA:BB:CC"] }],
    WIFI_DRIVER_NVRAM_PATH := none }

/-- A malformed table: "AA:BB:CC" is listed under MURATA and again under WISOL. -/
def hdr_dup : Header :=
  { RANGE_ENTRY_LEN := 9, MAX_RANGE_ENTRIES := 4,
    all_ranges := [{ type := CidType.SEMCO, macaddrs := [bytes "00:11:22"] },
                   { type := CidType.MURATA, macaddrs := [bytes "00:0e:6d", bytes "AA:BB:CC"] },
                   { type := CidType.WISOL, macaddrs := [bytes "AA:BB:CC"] }],
    WIFI_DRIVER_NVRAM_PATH := none }

/-- The table of `hdr_wisol` with the base calibration path configured. -/
def hdr_nvram : Header :=
  { hdr_wisol with WIFI_DRIVER_NVRAM_PATH := some (bytes "/system/etc/wifi/nvram_net.txt") }

/-- The table of `hdr_wisol` with the base calibration path configured as the empty string. -/
def hdr_empty_path : Header :=
  { hdr_wisol with WIFI_DRIVER_NVRAM_PATH := some [] }

/-- A run in which the MAC source holds "aa:bb:cc", there is no CID file yet, every call
succeeds, the base calibration file exists and the vendor-suffixed one does not. -/
def env_ok : Env :=
  { macaddr_file := some (bytes "aa:bb:cc\n"), fgets_error := false, cid_file := none,
    remove_ok := true, fopen_cid_ok := true, create_mode := 0o600, create_uid := 0,
    create_gid := 0, fputs_ret := 0, fchmod_ret := 0,
    system_pwd := some { pw_uid := 1000, pw_gid := 1000 }, fchown_ret := 0,
    file_exists := fun p => p == bytes "/system/etc/wifi/nvram_net.txt",
    open_param := some 3, write_base_ret := 31, write_suffixed_ret := 37,
    reclose_aborts := false, abort_flushes := false }

/-- The run `env_ok` on a device without the base calibration file. -/
def env_no_base_file : Env := { env_ok with file_exists := fun _ => false }

/-- The run `env_ok` with a libc that aborts the run on the second `fclose` of the MAC
source handle. -/
def env_abort : Env := { env_ok with reclose_aborts := true }

/-- The run `env_ok` with a libc whose `fputs` returns 1 on success. -/
def env_fputs_one : Env := { env_ok with fputs_ret := 1 }

/-- A run in which the MAC source cannot be opened and a CID file exists. -/
def env_no_source : Env :=
  { env_ok with macaddr_file := none,
                cid_file := some { content := bytes "murata", mode := 0o644, uid := 1000,
                                   gid := 1000 } }

/-- A run in which the MAC source is empty, so that `fgets` reads nothing. -/
def env_empty_source : Env := { env_no_source with macaddr_file := some [] }

/-- A run in which the MAC source holds an address no vendor lists, a CID file exists, and
its removal succeeds. -/
def env_stale_cid : Env := { env_no_source with macaddr_file := some (bytes "12:34:56\n") }

/-- The run `env_stale_cid` in which the removal of the CID file fails. -/
def env_remove_fails : Env := { env_stale_cid with remove_ok := false }

/-- A base calibration path of 1022 bytes: four directories with names of 254 bytes, and the
file `n`. -/
def long_base : List Nat :=
  (List.replicate 4 (47 :: List.replicate 254 97)).flatten ++ [47, 110]

/-- The table of `hdr_wisol` with the base calibration path `long_base`. -/
def hdr_long : Header := { hdr_wisol with WIFI_DRIVER_NVRAM_PATH := some long_base }

/-- The run `env_ok` on a device where `long_base` and the file `n_` next to it exist, and
no file with the suffix `_wisol` does. -/
def env_long : Env :=
  { env_ok with file_exists := fun p => p == long_base || p == long_base ++ [95],
                write_base_ret := 1023, write_suffixed_ret := 1024 }

/-- A MAC source whose first line holds a NUL byte: `a`, `b`, NUL, `c`, `d`, newline. -/
def source_with_nul : List Nat := [97, 98, 0, 99, 100, 10]

set_option maxRecDepth 100000

/-! ## Facts about C strings -/

theorem tolower_eq_zero (c : Nat) : tolower c = 0 ↔ c = 0 := by
  unfold tolower
  split <;> omega

theorem cstr_eq_nil (s : List Nat) : cstr s = [] ↔ s.headD 0 = 0 := by
  cases s with
  | nil => simp [cstr]
  | cons c t =>
    by_cases hc : c = 0 <;> simp [cstr, hc]

theorem strcasecmp_eq_zero (a b : List Nat) :
    strcasecmp a b = 0 ↔ (cstr a).map tolower = (cstr b).map tolower := by
  induction a generalizing b with
  | nil =>
    have h0 : tolower 0 = 0 := (tolower_eq_zero 0).2 rfl
    have key : strcasecmp [] b = 0 ↔ b.headD 0 = 0 := by
      rw [strcasecmp, h0, ← tolower_eq_zero (b.headD 0)]
      omega
    rw [key, ← cstr_eq_nil]
    constructor
    · intro hb
      rw [hb]
      rfl
    · intro hb
      exact List.map_eq_nil_iff.1 hb.symm
  | cons c1 s1 ih =>
    have h0 : tolower 0 = 0 := (tolower_eq_zero 0).2 rfl
    cases b with
    | nil =>
      by_cases hc : c1 = 0
      · subst hc
        simp [strcasecmp, cstr, h0]
      · have ht : tolower c1 ≠ 0 := fun h => hc ((tolower_eq_zero c1).1 h)
        simp [strcasecmp, cstr, hc, h0, ht]
    | cons c2 s2 =>
      by_cases ht : tolower c1 = tolower c2
      · by_cases hc : c1 = 0
        · subst hc
          have hc2 : c2 = 0 := (tolower_eq_zero c2).1 (by rw [← ht, h0])
          subst hc2
          simp [strcasecmp, cstr]
        · have hc2 : c2 ≠ 0 := by
            intro h2
            subst h2
            exact hc ((tolower_eq_zero c1).1 (by rw [ht, h0]))
          simp [strcasecmp, cstr, hc, hc2, ht, ih]
      · have hne : (tolower c1 : Int) - (tolower c2 : Int) ≠ 0 := by omega
        by_cases hc : c1 = 0
        · subst hc
          have hc2 : c2 ≠ 0 := by
            intro h2
            subst h2
            exact ht rfl
          simp [strcasecmp, cstr, hc2, ht, hne]
        · by_cases hc2 : c2 = 0
          · subst hc2
            simp [strcasecmp, cstr, hc, ht, hne]
          · simp [strcasecmp, cstr, hc, hc2, ht, hne]

theorem strcasecmp_caseless (a b : List Nat) :
    decide (strcasecmp a b = 0) = caseless_eq a b := by
  unfold caseless_eq
  by_cases h : strcasecmp a b = 0
  · rw [decide_eq_true h]
    exact (beq_iff_eq.2 ((strcasecmp_eq_zero a b).1 h)).symm
  · have hne : ¬ (cstr a).map tolower = (cstr b).map tolower :=
      fun h2 => h ((strcasecmp_eq_zero a b).2 h2)
    rw [decide_eq_false h]
    exact (beq_eq_false_iff_ne.2 hne).symm

theorem cstr_no_nul (s : List Nat) : ∀ c ∈ cstr s, c ≠ 0 := by
  induction s with
  | nil => simp [cstr]
  | cons a t ih =>
    by_cases ha : a = 0
    · simp [cstr, ha]
    · intro c hc
      simp only [cstr, ha, if_false, List.mem_cons] at hc
      rcases hc with hc | hc
      · rw [hc]
        exact ha
      · exact ih c hc

theorem cstr_of_no_nul (l : List Nat) (hl : ∀ c ∈ l, c ≠ 0) : cstr l = l := by
  induction l with
  | nil => rfl
  | cons a t ih =>
    have ha : a ≠ 0 := hl a (List.mem_cons_self _ _)
    simp [cstr, ha, ih (fun c hc => hl c (List.mem_cons_of_mem _ hc))]

theorem cstr_length_le (l : List Nat) : (cstr l).length ≤ l.length := by
  induction l with
  | nil => simp [cstr]
  | cons a t ih =>
    by_cases ha : a = 0
    · simp [cstr, ha]
    · simp [cstr, ha]
      exact ih

theorem cstr_append_zeros (l : List Nat) (m : Nat) :
    cstr (l ++ List.replicate m 0) = cstr l := by
  induction l with
  | nil =>
    cases m with
    | zero => rfl
    | succ m => simp [List.replicate_succ, cstr]
  | cons a t ih =>
    by_cases ha : a = 0
    · simp [cstr, ha]
    · simp [cstr, ha, ih]

theorem cstr_terminated (l : List Nat) (hl : (cstr l).length < l.length) :
    l.getD (cstr l).length 1 = 0 := by
  induction l with
  | nil => simp [cstr] at hl
  | cons a t ih =>
    by_cases ha : a = 0
    · simp [cstr, ha]
    · simp only [cstr, ha, if_false, List.length_cons] at hl ⊢
      rw [List.getD_cons_succ]
      exact ih (by omega)

theorem cstr_vendor_name (t : CidType) : cstr (vendor_name t) = vendor_name t := by
  cases t <;> decide

theorem read_line_eq (k : Nat) (s : List Nat) : read_line k s = (first_line s).take k := by
  induction k generalizing s with
  | zero => simp [read_line]
  | succ k ih =>
    cases s with
    | nil => simp [read_line, first_line]
    | cons c rest =>
      by_cases hc : c = 10
      · simp [read_line, first_line, hc]
      · simp [read_line, first_line, hc, ih]

/-! ## The classifier against its find-first reference -/

theorem scan_macaddrs_eq (a : List Nat) (rows : List (List Nat)) (fuel j : Nat) :
    scan_macaddrs a rows fuel j =
      (((rows.drop j).take fuel).takeWhile (fun e => cstr e != [])).any (caseless_eq a) := by
  induction fuel generalizing j with
  | zero => simp [scan_macaddrs]
  | succ k ih =>
    rw [scan_macaddrs]
    by_cases hj : j < rows.length
    · have hd : rows.drop j = rows[j] :: rows.drop (j + 1) := List.drop_eq_getElem_cons hj
      have hg : rows.getD j [] = rows[j] := by
        simp [List.getD, List.getElem?_eq_getElem hj]
      rw [hd, hg, List.take_succ_cons]
      by_cases he : (rows[j]).headD 0 = 0
      · have hn : cstr rows[j] = [] := (cstr_eq_nil _).2 he
        have hb : (cstr rows[j] != []) = false := by simp [hn]
        rw [if_pos he, List.takeWhile_cons, hb]
        rfl
      · have hn : ¬ cstr rows[j] = [] := fun h => he ((cstr_eq_nil _).1 h)
        have hb : (cstr rows[j] != []) = true := by simp [hn]
        rw [if_neg he, List.takeWhile_cons, hb]
        simp only [if_true, List.any_cons]
        rw [← strcasecmp_caseless, ← ih (j + 1)]
        by_cases hs : strcasecmp a rows[j] = 0 <;> simp [hs]
    · have hd : rows.drop j = [] := List.drop_eq_nil_of_le (by omega)
      have hg : rows.getD j [] = [] := by
        simp [List.getD, List.getElem?_eq_none (by omega : rows.length ≤ j)]
      rw [hd, hg]
      rfl

theorem scan_macaddrs_listed (h : Header) (a : List Nat) (r : VendorRange) :
    scan_macaddrs a r.macaddrs h.MAX_RANGE_ENTRIES 0 = (listed h r).any (caseless_eq a) := by
  rw [scan_macaddrs_eq]
  simp [listed]

/-- The find-first reference over a list of vendors. -/
theorem find_first_cons (h : Header) (a : List Nat) (r : VendorRange) (rest : List VendorRange) :
    (((r :: rest).map (fun r => (listed h r).map (fun e => (r.type, e)))).flatten).find?
        (fun p => caseless_eq a p.2) =
      if (listed h r).any (caseless_eq a) then
        ((listed h r).find? (caseless_eq a)).map (fun e => (r.type, e))
      else ((rest.map (fun r => (listed h r).map (fun e => (r.type, e)))).flatten).find?
        (fun p => caseless_eq a p.2) := by
  rw [List.map_cons, List.flatten_cons, List.find?_append]
  have hmap : ∀ l : List (List Nat), (l.map (fun e => (r.type, e))).find?
      (fun p => caseless_eq a p.2) = (l.find? (caseless_eq a)).map (fun e => (r.type, e)) := by
    intro l
    induction l with
    | nil => rfl
    | cons e t ih =>
      by_cases he : caseless_eq a e = true
      · simp [List.find?_cons, he]
      · simp only [Bool.not_eq_true] at he
        simp [List.find?_cons, he, ih]
  rw [hmap]
  by_cases hany : (listed h r).any (caseless_eq a) = true
  · rw [if_pos hany]
    obtain ⟨e, he, hm⟩ := List.any_eq_true.1 hany
    cases hf : (listed h r).find? (caseless_eq a) with
    | none =>
      have := List.find?_eq_none.1 hf e he
      exact absurd hm this
    | some x => rfl
  · rw [if_neg hany]
    have hnone : (listed h r).find? (caseless_eq a) = none := by
      apply List.find?_eq_none.2
      intro e he hm
      exact hany (List.any_eq_true.2 ⟨e, he, hm⟩)
    rw [hnone]
    rfl

theorem scan_ranges_eq (h : Header) (a : List Nat) (fuel i : Nat)
    (hlen : h.all_ranges.length ≤ fuel + i) :
    scan_ranges h a fuel i =
      match (((h.all_ranges.drop i).map
          (fun r => (listed h r).map (fun e => (r.type, e)))).flatten).find?
          (fun p => caseless_eq a p.2) with
      | some p => p.1
      | none => CidType.NONE := by
  induction fuel generalizing i with
  | zero =>
    have hd : h.all_ranges.drop i = [] := List.drop_eq_nil_of_le (by omega)
    simp [scan_ranges, hd]
  | succ k ih =>
    rw [scan_ranges]
    by_cases hi : i < h.all_ranges.length
    · have hd : h.all_ranges.drop i = h.all_ranges[i] :: h.all_ranges.drop (i + 1) :=
        List.drop_eq_getElem_cons hi
      rw [List.getElem?_eq_getElem hi, hd, find_first_cons]
      dsimp only
      rw [scan_macaddrs_listed]
      by_cases hany : (listed h h.all_ranges[i]).any (caseless_eq a) = true
      · obtain ⟨e, he, hm⟩ := List.any_eq_true.1 hany
        cases hf : (listed h h.all_ranges[i]).find? (caseless_eq a) with
        | none => exact absurd hm (List.find?_eq_none.1 hf e he)
        | some x => simp [hany, hf]
      · simp only [hany, if_false, Bool.false_eq_true]
        exact ih (i + 1) (by omega)
    · have hd : h.all_ranges.drop i = [] := List.drop_eq_nil_of_le (by omega)
      simp [List.getElem?_eq_none (by omega : h.all_ranges.length ≤ i), hd]

theorem classify_eq_reference (h : Header) (a : List Nat) :
    classify_macaddr_half h a = classify_reference h a := by
  unfold classify_macaddr_half classify_reference Header.TYPE_MAX
  rw [scan_ranges_eq h a _ 0 (by omega)]
  simp

theorem caseless_eq_congr (a b e : List Nat)
    (hab : (cstr a).map tolower = (cstr b).map tolower) : caseless_eq a e = caseless_eq b e := by
  unfold caseless_eq
  rw [hab]

theorem find_first_type (h : Header) (a : List Nat) (rs : List VendorRange) (i : Nat)
    (r : VendorRange) (hr : rs[i]? = some r)
    (hlist : ∃ e ∈ listed h r, caseless_eq a e = true)
    (hfirst : ∀ (k : Nat) (r' : VendorRange), k < i → rs[k]? = some r' →
      ∀ e ∈ listed h r', caseless_eq a e = false) :
    (match ((rs.map (fun r => (listed h r).map (fun e => (r.type, e)))).flatten).find?
        (fun p => caseless_eq a p.2) with
      | some p => p.1
      | none => CidType.NONE) = r.type := by
  induction rs generalizing i with
  | nil => simp at hr
  | cons r0 rest ih =>
    rw [find_first_cons]
    cases i with
    | zero =>
      have h0 : r0 = r := by simpa using hr
      subst h0
      have hany : (listed h r0).any (caseless_eq a) = true := List.any_eq_true.2 hlist
      obtain ⟨e, he, hm⟩ := hlist
      cases hf : (listed h r0).find? (caseless_eq a) with
      | none => exact absurd hm (List.find?_eq_none.1 hf e he)
      | some x => simp [hany]
    | succ i' =>
      have hno : ¬ (listed h r0).any (caseless_eq a) = true := by
        intro hany
        obtain ⟨e, he, hm⟩ := List.any_eq_true.1 hany
        have := hfirst 0 r0 (by omega) (by simp) e he
        rw [this] at hm
        exact Bool.false_ne_true hm
      rw [if_neg hno]
      apply ih i' (by simpa using hr)
      intro k r' hk hk' e he
      exact hfirst (k + 1) r' (by omega) (by simpa using hk') e he

theorem find_first_none (h : Header) (a : List Nat) (rs : List VendorRange)
    (hno : ∀ r ∈ rs, ∀ e ∈ listed h r, caseless_eq a e = false) :
    (match ((rs.map (fun r => (listed h r).map (fun e => (r.type, e)))).flatten).find?
        (fun p => caseless_eq a p.2) with
      | some p => p.1
      | none => CidType.NONE) = CidType.NONE := by
  induction rs with
  | nil => rfl
  | cons r0 rest ih =>
    rw [find_first_cons]
    have hn : ¬ (listed h r0).any (caseless_eq a) = true := by
      intro hany
      obtain ⟨e, he, hm⟩ := List.any_eq_true.1 hany
      have := hno r0 (List.mem_cons_self _ _) e he
      rw [this] at hm
      exact Bool.false_ne_true hm
    rw [if_neg hn]
    exact ih (fun r hr => hno r (List.mem_cons_of_mem _ hr))

/-! ## The exits of a run -/

theorem type_str_vendor (t : CidType) (ht : t ≠ CidType.NONE) :
    type_str t = some (vendor_name t) := by
  cases t <;> first | rfl | exact absurd rfl ht

theorem wifi_cases (env : Env) (nv name : List Nat) (w : World) :
    (stat env nv ≠ 0 ∧
      wifi_change_nvram_calibration env (some nv) (some name) w = (-1, wifi_stat env nv w)) ∨
    (stat env nv = 0 ∧ env.open_param = none ∧
      wifi_change_nvram_calibration env (some nv) (some name) w =
        (-1, wifi_open env nv (-1) w)) ∨
    (∃ fd : Nat, stat env nv = 0 ∧ env.open_param = some fd ∧
      env.write_base_ret ≠ (strlen nv : Int) + 1 ∧
      wifi_change_nvram_calibration env (some nv) (some name) w =
        (-1, (wifi_write env nv fd w).log Event.close_param)) ∨
    (∃ fd : Nat, stat env nv = 0 ∧ env.open_param = some fd ∧
      env.write_base_ret = (strlen nv : Int) + 1 ∧ stat env (snprintf 1024 nv name) ≠ 0 ∧
      wifi_change_nvram_calibration env (some nv) (some name) w =
        (0, (wifi_stat_suffixed env nv name fd w).log Event.close_param)) ∨
    (∃ fd : Nat, stat env nv = 0 ∧ env.open_param = some fd ∧
      env.write_base_ret = (strlen nv : Int) + 1 ∧ stat env (snprintf 1024 nv name) = 0 ∧
      wifi_change_nvram_calibration env (some nv) (some name) w =
        (0, (wifi_write_suffixed env nv name fd w).log Event.close_param)) := by
  by_cases h1 : stat env nv = 0
  · cases h2 : env.open_param with
    | none =>
      right; left
      simp [wifi_change_nvram_calibration, wifi_out, wifi_open, wifi_stat, h1, h2]
    | some fd =>
      have hfd : ¬ ((fd : Int) < 0) := by omega
      have hfd2 : ¬ ((fd : Int) = -1) := by omega
      by_cases h3 : env.write_base_ret = (strlen nv : Int) + 1
      · by_cases h4 : stat env (snprintf 1024 nv name) = 0
        · right; right; right; right
          refine ⟨fd, h1, rfl, h3, h4, ?_⟩
          simp [wifi_change_nvram_calibration, wifi_out, wifi_write_suffixed,
            wifi_stat_suffixed, wifi_write, wifi_open, wifi_stat, h1, h2, h3, h4, hfd, hfd2]
        · right; right; right; left
          refine ⟨fd, h1, rfl, h3, h4, ?_⟩
          simp [wifi_change_nvram_calibration, wifi_out,
            wifi_stat_suffixed, wifi_write, wifi_open, wifi_stat, h1, h2, h3, h4, hfd, hfd2]
      · right; right; left
        refine ⟨fd, h1, rfl, h3, ?_⟩
        simp [wifi_change_nvram_calibration, wifi_out,
            wifi_write, wifi_open, wifi_stat, h1, h2, h3, hfd, hfd2]
  · left
    simp [wifi_change_nvram_calibration, wifi_out, wifi_stat, h1]

theorem main_provision_cases (h : Header) (env : Env) (name : List Nat) (w : World) :
    (env.fopen_cid_ok = false ∧
      main_provision h env name w = main_out env true false (-1) (w.log (Event.fopen_cid false))) ∨
    (env.fopen_cid_ok = true ∧ env.fputs_ret ≠ 0 ∧
      main_provision h env name w = main_out env true true (-1) (step_write env name w)) ∨
    (env.fopen_cid_ok = true ∧ env.fputs_ret = 0 ∧ env.fchmod_ret ≠ 0 ∧
      main_provision h env name w = main_out env true true (-1) (step_mode env name w)) ∨
    (env.fopen_cid_ok = true ∧ env.fputs_ret = 0 ∧ env.fchmod_ret = 0 ∧
      env.system_pwd = none ∧
      main_provision h env name w = main_out env true true (-1) (step_lookup env name w)) ∨
    (∃ pwd, env.fopen_cid_ok = true ∧ env.fputs_ret = 0 ∧ env.fchmod_ret = 0 ∧
      env.system_pwd = some pwd ∧ env.fchown_ret ≠ 0 ∧
      main_provision h env name w = main_out env true true (-1) (step_own env name pwd w)) ∨
    (∃ pwd, env.fopen_cid_ok = true ∧ env.fputs_ret = 0 ∧ env.fchmod_ret = 0 ∧
      env.system_pwd = some pwd ∧ env.fchown_ret = 0 ∧ h.WIFI_DRIVER_NVRAM_PATH = none ∧
      main_provision h env name w = main_out env true true 0 (step_own env name pwd w)) ∨
    (∃ pwd nv, env.fopen_cid_ok = true ∧ env.fputs_ret = 0 ∧ env.fchmod_ret = 0 ∧
      env.system_pwd = some pwd ∧ env.fchown_ret = 0 ∧ h.WIFI_DRIVER_NVRAM_PATH = some nv ∧
      main_provision h env name w =
        main_out env true true
          (if (wifi_change_nvram_calibration env (some nv) (some name)
              (step_own env name pwd w)).1 ≠ 0 then -1 else 0)
          (wifi_change_nvram_calibration env (some nv) (some name)
            (step_own env name pwd w)).2) := by
  by_cases h1 : env.fopen_cid_ok = false
  · left
    exact ⟨h1, by simp [main_provision, h1]⟩
  · have h1' : env.fopen_cid_ok = true := by simpa using h1
    right
    by_cases h2 : env.fputs_ret = 0
    · right
      by_cases h3 : env.fchmod_ret = 0
      · right
        cases h4 : env.system_pwd with
        | none =>
          left
          exact ⟨h1', h2, h3, rfl, by simp [main_provision, h1', h2, h3, h4, step_lookup,
            step_mode, step_write]⟩
        | some pwd =>
          right
          by_cases h5 : env.fchown_ret = 0
          · right
            cases h6 : h.WIFI_DRIVER_NVRAM_PATH with
            | none =>
              left
              exact ⟨pwd, h1', h2, h3, rfl, h5, rfl, by simp [main_provision, h1', h2, h3, h4,
                h5, h6, step_own, step_lookup, step_mode, step_write]⟩
            | some nv =>
              right
              refine ⟨pwd, nv, h1', h2, h3, rfl, h5, rfl, ?_⟩
              simp only [main_provision, h1', h2, h3, h4, h5, h6, step_own, step_lookup,
                step_mode, step_write]
              simp only [Bool.true_eq_false, if_false, ne_eq, not_true_eq_false]
              split <;> simp_all
          · left
            exact ⟨pwd, h1', h2, h3, rfl, h5, by simp [main_provision, h1', h2, h3, h4, h5,
              step_own, step_lookup, step_mode, step_write]⟩
      · left
        exact ⟨h1', h2, h3, by simp [main_provision, h1', h2, h3, step_mode, step_write]⟩
    · left
      exact ⟨h1', h2, by simp [main_provision, h1', h2, step_write]⟩

theorem main_cases (h : Header) (env : Env) :
    (classified h env = none ∧ env.macaddr_file = none ∧
      main h env = main_out env false false (-1)
        { cid := env.cid_file, trace := [Event.fopen_mac false] }) ∨
    (classified h env = none ∧ env.macaddr_file ≠ none ∧
      main h env = main_out env true false (-1)
        { cid := env.cid_file,
          trace := [Event.fopen_mac true, Event.fgets_mac false, Event.fclose_mac] }) ∨
    (classified h env = some CidType.NONE ∧
      main h env = main_out env true false 0 (remove env (w_read env))) ∨
    (∃ t, classified h env = some t ∧ t ≠ CidType.NONE ∧
      main h env = main_provision h env (vendor_name t) (w_read env)) := by
  cases hm : env.macaddr_file with
  | none =>
    left
    exact ⟨by simp [classified, hm], rfl, by simp [main, hm, World.log]⟩
  | some content =>
    right
    cases hr : read_mac_addr_half h content env.fgets_error with
    | none =>
      left
      exact ⟨by simp [classified, hm, hr], by simp, by simp [main, hm, hr, World.log]⟩
    | some buf =>
      right
      by_cases ht : classify_macaddr_half h buf = CidType.NONE
      · left
        exact ⟨by simp [classified, hm, hr, ht], by simp [main, hm, hr, ht, World.log, w_read]⟩
      · right
        exact ⟨classify_macaddr_half h buf, by simp [classified, hm, hr], ht,
          by simp [main, hm, hr, ht, type_str_vendor _ ht, World.log, w_read]⟩

theorem classified_eq_none (h : Header) (env : Env) :
    classified h env = none ↔
      (env.macaddr_file = none ∨ ∃ content, env.macaddr_file = some content ∧
        fgets h.RANGE_ENTRY_LEN content env.fgets_error = none) := by
  cases hm : env.macaddr_file with
  | none => simp [classified, hm]
  | some c => simp [classified, hm, read_mac_addr_half]

theorem amode_eq : S_IRUSR ||| S_IWUSR ||| S_IRGRP ||| S_IROTH = 0o644 := by decide

theorem step_own_cid (env : Env) (name : List Nat) (pwd : Passwd) (w : World)
    (h2 : 0 ≤ env.fputs_ret) (h3 : env.fchmod_ret = 0) (h5 : env.fchown_ret = 0) :
    (step_own env name pwd w).cid =
      some { content := cstr name, mode := 0o644, uid := pwd.pw_uid, gid := pwd.pw_gid } := by
  cases hc : w.cid <;>
    simp [step_own, step_lookup, step_mode, step_write, fopen_w, fputs, fchmod, fchown,
      World.log, amode_eq, h2, h3, h5, hc]

theorem stat_empty (env : Env) (nv : List Nat) (hnv : cstr nv = []) : stat env nv ≠ 0 := by
  simp [stat, hnv]

theorem stat_suffixed_missing (env : Env) (base : List Nat) (V : CidType)
    (hfit : (cstr base ++ [95] ++ vendor_name V).length ≤ 1023)
    (hmissing : env.file_exists (cstr base ++ [95] ++ vendor_name V) = false) :
    stat env (snprintf 1024 base (vendor_name V)) ≠ 0 := by
  have hs : snprintf 1024 base (vendor_name V) = cstr base ++ [95] ++ vendor_name V := by
    unfold snprintf
    rw [cstr_vendor_name]
    exact List.take_of_length_le (by omega)
  have hc : cstr (cstr base ++ [95] ++ vendor_name V) = cstr base ++ [95] ++ vendor_name V := by
    apply cstr_of_no_nul
    intro c hc
    simp only [List.mem_append, List.mem_singleton] at hc
    rcases hc with (hc | hc) | hc
    · exact cstr_no_nul base c hc
    · omega
    · rw [← cstr_vendor_name] at hc
      exact cstr_no_nul _ c hc
  rw [hs]
  unfold stat
  rw [hc, hmissing]
  simp

/-! ## C1 and C2: the classifier -/

/-- C1: for every range table and every input string, `classify_macaddr_half` equals the
find-first reference: the vendor type of the first entry, in declared order of vendors and of
each vendor's entries up to its first empty sentinel, that equals the input case-insensitively,
and NONE when there is none.  In particular NONE is returned when no vendor lists the input,
and the type of the vendor declared first among those that list it otherwise (the only such
vendor, or the earlier of two). -/
theorem classify_macaddr_half_find_first (h : Header) (input : List Nat) :
    classify_macaddr_half h input = classify_reference h input ∧
    ((∀ r ∈ h.all_ranges, ∀ e ∈ listed h r, caseless_eq input e = false) →
      classify_macaddr_half h input = CidType.NONE) ∧
    (∀ (i : Nat) (r : VendorRange), h.all_ranges[i]? = some r →
      (∃ e ∈ listed h r, caseless_eq input e = true) →
      (∀ (k : Nat) (r' : VendorRange), k < i → h.all_ranges[k]? = some r' →
        ∀ e ∈ listed h r', caseless_eq input e = false) →
      classify_macaddr_half h input = r.type) := by
  refine ⟨classify_eq_reference h input, ?_, ?_⟩
  · intro hno
    rw [classify_eq_reference]
    exact find_first_none h input h.all_ranges hno
  · intro i r hr hlist hfirst
    rw [classify_eq_reference]
    exact find_first_type h input h.all_ranges i r hr hlist hfirst

/-- C1 at a table that lists "AA:BB:CC" under MURATA and again under WISOL: the input
"aa:bb:cc" yields MURATA, the vendor declared first. -/
theorem classify_macaddr_half_find_first_witness :
    classify_macaddr_half hdr_dup (bytes "aa:bb:cc") = CidType.MURATA :=
  (classify_macaddr_half_find_first hdr_dup (bytes "aa:bb:cc")).2.2 1
    { type := CidType.MURATA, macaddrs := [bytes "00:0e:6d", bytes "AA:BB:CC"] }
    (by decide) ⟨bytes "AA:BB:CC", by decide, by decide⟩
    (by
      intro k r' hk hr' e he
      have hk0 : k = 0 := by omega
      subst hk0
      have h0 : r' = { type := CidType.SEMCO, macaddrs := [bytes "00:11:22"] } := by
        simpa [hdr_dup] using hr'.symm
      subst h0
      have he' : e = bytes "00:11:22" := by
        have hl : listed hdr_dup { type := CidType.SEMCO, macaddrs := [bytes "00:11:22"] } =
            [bytes "00:11:22"] := by decide
        rw [hl] at he
        simpa using he
      subst he'
      decide)

/-- C2: classification is case-insensitive.  For every range table and every two input
strings that are equal after ASCII case folding, `classify_macaddr_half` returns the same
vendor identifier. -/
theorem classify_macaddr_half_case_insensitive (h : Header) (a b : List Nat)
    (hab : (cstr a).map tolower = (cstr b).map tolower) :
    classify_macaddr_half h a = classify_macaddr_half h b := by
  rw [classify_eq_reference, classify_eq_reference]
  unfold classify_reference
  have hfun : (fun p : CidType × List Nat => caseless_eq a p.2) =
      (fun p : CidType × List Nat => caseless_eq b p.2) := by
    funext p
    exact caseless_eq_congr a b p.2 hab
  rw [hfun]

/-- C2 at "AA:BB:CC" and "aa:bb:cc": both classify to the same vendor, WISOL. -/
theorem classify_macaddr_half_case_insensitive_witness :
    classify_macaddr_half hdr_wisol (bytes "AA:BB:CC") =
      classify_macaddr_half hdr_wisol (bytes "aa:bb:cc") ∧
    classify_macaddr_half hdr_wisol (bytes "aa:bb:cc") = CidType.WISOL :=
  ⟨classify_macaddr_half_case_insensitive hdr_wisol (bytes "AA:BB:CC") (bytes "aa:bb:cc")
    (by decide), by decide⟩

/-! ## The label `out` -/

@[simp]
theorem main_out_trace_both (env : Env) (r : Int) (w : World) :
    (main_out env true true r w).trace = w.trace ++ [Event.fclose_mac, Event.fclose_cid] := by
  simp [main_out, World.log]

@[simp]
theorem main_out_trace_source (env : Env) (r : Int) (w : World) :
    (main_out env true false r w).trace = w.trace ++ [Event.fclose_mac] := by
  simp [main_out, World.log]

@[simp]
theorem main_out_trace_none (env : Env) (r : Int) (w : World) :
    (main_out env false false r w).trace = w.trace := by
  simp [main_out]

@[simp]
theorem main_out_ret_source (env : Env) (c : Bool) (r : Int) (w : World) :
    (main_out env true c r w).ret = if env.reclose_aborts = true then ABORT_STATUS else r := by
  simp [main_out]

@[simp]
theorem main_out_ret_none (env : Env) (c : Bool) (r : Int) (w : World) :
    (main_out env false c r w).ret = r := by
  simp [main_out]

@[simp]
theorem main_out_aborted_source (env : Env) (c : Bool) (r : Int) (w : World) :
    (main_out env true c r w).aborted = env.reclose_aborts := by
  simp [main_out]

@[simp]
theorem main_out_aborted_none (env : Env) (c : Bool) (r : Int) (w : World) :
    (main_out env false c r w).aborted = false := by
  simp [main_out]

@[simp]
theorem main_out_cid_closed (env : Env) (f : Bool) (r : Int) (w : World) :
    (main_out env f false r w).cid = w.cid := by
  cases f <;> simp [main_out, World.log]

theorem main_out_cid_returns (env : Env) (r : Int) (w : World)
    (hb : env.reclose_aborts = false) : (main_out env true true r w).cid = w.cid := by
  simp [main_out, World.log, hb]

theorem abort_status_ne_zero : ABORT_STATUS ≠ 0 := by decide

/-! ## C4 and C5: runs that provision nothing -/

/-- C4: if the MAC source file cannot be opened, or `fgets` reads no first line from it, the
run leaves the CID file as it was, makes no call that changes the file system (no removal,
open for writing, write, chmod or chown of the CID file) and none that opens or writes the
driver control interface, and returns a nonzero status. -/
theorem unreadable_source_changes_nothing (h : Header) (env : Env)
    (hsrc : env.macaddr_file = none ∨ ∃ content, env.macaddr_file = some content ∧
      fgets h.RANGE_ENTRY_LEN content env.fgets_error = none) :
    (main h env).cid = env.cid_file ∧
    (∀ e ∈ (main h env).trace, is_mutation e = false ∧ touches_driver e = false) ∧
    (main h env).ret ≠ 0 := by
  have hc := (classified_eq_none h env).2 hsrc
  rcases main_cases h env with ⟨_, _, he⟩ | ⟨_, _, he⟩ | ⟨h1, _⟩ | ⟨t, h1, _⟩
  · rw [he]
    simp [World.log, is_mutation, touches_driver]
  · rw [he]
    cases hb : env.reclose_aborts <;>
      simp [World.log, is_mutation, touches_driver, hb, ABORT_STATUS]
  · rw [hc] at h1
    cases h1
  · rw [hc] at h1
    cases h1

/-- C4 at a run whose MAC source cannot be opened and at a run whose MAC source is empty:
the existing CID file is kept and the status is nonzero. -/
theorem unreadable_source_changes_nothing_witness :
    ((main hdr_nvram env_no_source).cid = env_no_source.cid_file ∧
      (∀ e ∈ (main hdr_nvram env_no_source).trace,
        is_mutation e = false ∧ touches_driver e = false) ∧
      (main hdr_nvram env_no_source).ret ≠ 0) ∧
    ((main hdr_nvram env_empty_source).cid = env_empty_source.cid_file ∧
      (∀ e ∈ (main hdr_nvram env_empty_source).trace,
        is_mutation e = false ∧ touches_driver e = false) ∧
      (main hdr_nvram env_empty_source).ret ≠ 0) :=
  ⟨unreadable_source_changes_nothing hdr_nvram env_no_source (Or.inl rfl),
   unreadable_source_changes_nothing hdr_nvram env_empty_source
     (Or.inr ⟨[], rfl, by decide⟩)⟩

/-- C5 as stated fails: in a run that classifies to NONE while a CID file exists and its
removal fails, the CID file is still there after the run, and the status is 0.  The run is
not aborted by the second close of the MAC source. -/
theorem failed_removal_keeps_cid :
    classified hdr_nvram env_remove_fails = some CidType.NONE ∧
    env_remove_fails.cid_file ≠ none ∧
    (main hdr_nvram env_remove_fails).aborted = false ∧
    (main hdr_nvram env_remove_fails).cid = env_remove_fails.cid_file ∧
    (main hdr_nvram env_remove_fails).ret = 0 := by
  decide

/-- C5, amended: in every run in which the address read classifies to NONE, the run calls
`remove` on the CID file and ignores what it returns; afterwards there is no CID file when
the removal succeeds (or there was none), and the file is as before when the removal fails.
The removal is the only call that changes the file system, and the driver control interface
is neither opened nor written.  The exit status is 0 when the second `fclose` of the MAC
source at `out` does not abort the run. -/
theorem no_match_removes_cid (h : Header) (env : Env)
    (hnone : classified h env = some CidType.NONE) :
    ((main h env).aborted = false → (main h env).ret = 0) ∧
    (main h env).cid = (if env.remove_ok = true then none else env.cid_file) ∧
    (∃ r, (main h env).trace.filter is_mutation = [Event.remove_cid r]) ∧
    (∀ e ∈ (main h env).trace, touches_driver e = false) := by
  rcases main_cases h env with ⟨h1, _⟩ | ⟨h1, _⟩ | ⟨_, he⟩ | ⟨t, h1, ht, _⟩
  · rw [hnone] at h1
    cases h1
  · rw [hnone] at h1
    cases h1
  · rw [he]
    refine ⟨?_, ?_, ?_, ?_⟩
    · simp +contextual
    · cases hc : env.cid_file <;> cases hr : env.remove_ok <;>
        simp [World.log, remove, w_read, hc, hr]
    · simp [World.log, remove, w_read, is_mutation, List.filter]
    · simp [World.log, remove, w_read, touches_driver]
  · rw [hnone] at h1
    injection h1 with h1
    exact absurd h1.symm ht

/-- C5, amended, at a run with a stale CID file whose removal succeeds and whose second close
of the MAC source returns: the file is gone and the status is 0. -/
theorem no_match_removes_cid_witness :
    classified hdr_nvram env_stale_cid = some CidType.NONE ∧
    env_stale_cid.cid_file ≠ none ∧
    (main hdr_nvram env_stale_cid).ret = 0 ∧
    (main hdr_nvram env_stale_cid).cid = none :=
  ⟨by decide, by decide,
   (no_match_removes_cid hdr_nvram env_stale_cid (by decide)).1 (by decide),
   (no_match_removes_cid hdr_nvram env_stale_cid (by decide)).2.1⟩

/-! ## C3: a run that provisions the CID file -/

/-- C3 as stated fails: the address read classifies to WISOL and every open, write, chmod,
account lookup and chown the run attempts succeeds, yet the run returns a nonzero status,
because the `stat` of the configured base calibration file fails.  The run is not aborted by
the second close of the MAC source. -/
theorem vendor_run_fails_without_base_file :
    classified hdr_nvram env_no_base_file = some CidType.WISOL ∧
    (∀ e ∈ (main hdr_nvram env_no_base_file).trace, attempt_failed e = false) ∧
    (main hdr_nvram env_no_base_file).aborted = false ∧
    (main hdr_nvram env_no_base_file).ret ≠ 0 := by
  decide

/-- A run whose `fputs` returns 1, a success by the C standard, ends with status -1 and
never sets the mode or the owner of the CID file: `main` tests `ret != 0`. -/
theorem fputs_positive_return_is_fatal :
    (main hdr_nvram env_fputs_one).ret = -1 ∧
    (main hdr_nvram env_fputs_one).cid =
      some { content := bytes "wisol", mode := 0o600, uid := 0, gid := 0 } := by
  decide

/-- A run in which every call succeeds and the second `fclose` of the MAC source aborts ends
with the abort status, not 0, and with no failed call in its trace. -/
theorem repeated_fclose_abort_is_fatal :
    (main hdr_nvram env_abort).aborted = true ∧
    (main hdr_nvram env_abort).ret ≠ 0 ∧
    (∀ e ∈ (main hdr_nvram env_abort).trace,
      attempt_failed e = false ∧ base_stat_failed e = false) := by
  decide

/-- C3, amended: in every run in which the address read classifies to a vendor V, every open,
write, chmod, account lookup and chown the run attempts succeeds, `fputs` returns 0 for the
vendor string, the `stat` of the base calibration file (made when the base path is
configured) succeeds, and the second `fclose` of the MAC source at `out` does not abort the
run, the run ends with the CID file existing, containing exactly V's lowercase name, with
mode 0644, owned by the uid and gid that the lookup of the account `system` returned, and
with exit status 0. -/
theorem vendor_run_provisions_cid (h : Header) (env : Env) (V : CidType)
    (hV : classified h env = some V) (hne : V ≠ CidType.NONE)
    (hok : ∀ e ∈ (main h env).trace, attempt_failed e = false)
    (hput : ∀ e ∈ (main h env).trace, cid_write_positive e = false)
    (hstat : ∀ e ∈ (main h env).trace, base_stat_failed e = false)
    (hrun : (main h env).aborted = false) :
    (main h env).ret = 0 ∧
    Event.getpwnam (bytes "system") true ∈ (main h env).trace ∧
    ∃ pwd, env.system_pwd = some pwd ∧
      (main h env).cid = some { content := vendor_name V, mode := 0o644,
                                uid := pwd.pw_uid, gid := pwd.pw_gid } := by
  revert hok hput hstat hrun
  rcases main_cases h env with ⟨hc, _⟩ | ⟨hc, _⟩ | ⟨hc, _⟩ | ⟨t, hc, _, he⟩
  · rw [hV] at hc
    cases hc
  · rw [hV] at hc
    cases hc
  · rw [hV] at hc
    injection hc with hc
    exact absurd hc hne
  · rw [hV] at hc
    injection hc with hc
    subst hc
    rw [he]
    rcases main_provision_cases h env (vendor_name V) (w_read env) with
      ⟨h1, hp⟩ | ⟨h1, h2, hp⟩ | ⟨h1, h2, h3, hp⟩ | ⟨h1, h2, h3, h4, hp⟩ |
      ⟨pwd, h1, h2, h3, h4, h5, hp⟩ | ⟨pwd, h1, h2, h3, h4, h5, h6, hp⟩ |
      ⟨pwd, nv, h1, h2, h3, h4, h5, h6, hp⟩
    · rw [hp]
      simp [World.log, w_read, attempt_failed, fatal_failure]
    · rw [hp]
      simp [World.log, w_read, step_write, fopen_w, fputs, attempt_failed,
        fatal_failure, cid_write_positive]
      intro _ _
      omega
    · rw [hp]
      simp [World.log, w_read, step_mode, step_write, fopen_w, fputs, fchmod,
        attempt_failed, fatal_failure, h2, h3]
    · rw [hp]
      simp [World.log, w_read, step_lookup, step_mode, step_write, fopen_w, fputs,
        fchmod, attempt_failed, fatal_failure, h2, h3, h4]
    · rw [hp]
      simp [World.log, w_read, step_own, step_lookup, step_mode, step_write,
        fopen_w, fputs, fchmod, fchown, attempt_failed, fatal_failure, h2, h3, h4, h5]
    · rw [hp]
      intro _ _ _ hrun
      have hb : env.reclose_aborts = false := by simpa using hrun
      have hcid := step_own_cid env (vendor_name V) pwd (w_read env) (by omega) h3 h5
      rw [cstr_vendor_name] at hcid
      refine ⟨by simp [hb], ?_, pwd, h4, ?_⟩
      · simp [World.log, step_own, step_lookup, fchown, h4]
      · simpa [main_out_cid_returns env _ _ hb, World.log] using hcid
    · rw [hp]
      have hcid := step_own_cid env (vendor_name V) pwd (w_read env) (by omega) h3 h5
      rw [cstr_vendor_name] at hcid
      rcases wifi_cases env nv (vendor_name V) (step_own env (vendor_name V) pwd (w_read env))
        with ⟨w1, hw⟩ | ⟨w1, w2, hw⟩ | ⟨fd, w1, w2, w3, hw⟩ | ⟨fd, w1, w2, w3, w4, hw⟩ |
          ⟨fd, w1, w2, w3, w4, hw⟩
      · rw [hw]
        intro _ _ hs _
        have := hs (Event.stat_base nv (stat env nv)) (by simp [World.log, wifi_stat])
        simp [base_stat_failed, w1] at this
      · rw [hw]
        intro ho _ _ _
        have := ho (Event.open_param (-1)) (by simp [World.log, wifi_open])
        simp [attempt_failed, fatal_failure] at this
      · rw [hw]
        intro ho _ _ _
        have := ho (Event.write_base (cstr nv ++ [0]) ((strlen nv : Int) + 1) env.write_base_ret)
          (by simp [World.log, wifi_write])
        simp [attempt_failed, fatal_failure, w3] at this
      · rw [hw]
        intro _ _ _ hrun
        have hb : env.reclose_aborts = false := by simpa using hrun
        refine ⟨by simp [hb], ?_, pwd, h4, ?_⟩
        · simp [World.log, wifi_stat_suffixed, wifi_write, wifi_open, wifi_stat,
            step_own, step_lookup, fchown, h4]
        · simpa [main_out_cid_returns env _ _ hb, World.log, wifi_stat_suffixed, wifi_write,
            wifi_open, wifi_stat] using hcid
      · rw [hw]
        intro _ _ _ hrun
        have hb : env.reclose_aborts = false := by simpa using hrun
        refine ⟨by simp [hb], ?_, pwd, h4, ?_⟩
        · simp [World.log, wifi_write_suffixed, wifi_stat_suffixed, wifi_write,
            wifi_open, wifi_stat, step_own, step_lookup, fchown, h4]
        · simpa [main_out_cid_returns env _ _ hb, World.log, wifi_write_suffixed,
            wifi_stat_suffixed, wifi_write, wifi_open, wifi_stat] using hcid

/-- C3, amended, at the example of the specification: the table lists "AA:BB:CC" under WISOL,
the MAC source holds "aa:bb:cc", every call succeeds; the CID file then holds "wisol". -/
theorem vendor_run_provisions_cid_witness :
    vendor_name CidType.WISOL = bytes "wisol" ∧
    (main hdr_nvram env_ok).ret = 0 ∧
    Event.getpwnam (bytes "system") true ∈ (main hdr_nvram env_ok).trace ∧
    ∃ pwd, env_ok.system_pwd = some pwd ∧
      (main hdr_nvram env_ok).cid = some { content := vendor_name CidType.WISOL, mode := 0o644,
                                           uid := pwd.pw_uid, gid := pwd.pw_gid } :=
  ⟨rfl, vendor_run_provisions_cid hdr_nvram env_ok CidType.WISOL (by decide) (by decide)
    (by decide) (by decide) (by decide) (by decide)⟩

/-! ## C6, C7 and C9: the calibration switch and the exit status -/

/-- C6 as stated fails: the run classifies to WISOL, completes the CID steps, opens the driver
control path and writes the base calibration path in full, and no file named
`basePath_wisol` exists; yet the run makes two writes to the driver control interface.  The
base path is 1022 bytes long, so the path built in the 1024-byte buffer is cut to
`basePath_`, and a file of that name exists. -/
theorem long_base_path_second_write :
    classified hdr_long env_long = some CidType.WISOL ∧
    hdr_long.WIFI_DRIVER_NVRAM_PATH = some long_base ∧
    Event.fchown_cid 1000 1000 0 ∈ (main hdr_long env_long).trace ∧
    Event.open_param 3 ∈ (main hdr_long env_long).trace ∧
    Event.write_base (cstr long_base ++ [0]) 1023 1023 ∈ (main hdr_long env_long).trace ∧
    env_long.file_exists (cstr long_base ++ [95] ++ vendor_name CidType.WISOL) = false ∧
    (main hdr_long env_long).aborted = false ∧
    ((main hdr_long env_long).trace.filter is_driver_write).length = 2 := by
  decide

/-- C6, amended: in every run that classifies to a vendor V with the base calibration path
configured, and whose write of the base calibration path to the driver control interface
succeeds (a write the run makes only after it completed the CID steps and opened the driver
control path): if `basePath_V` fits the 1024-byte buffer it is built in (at most 1023 bytes)
and no file of that name exists, exactly one write was made to the driver control
interface, carrying the base calibration path, and the run exits 0 when the second `fclose`
of the MAC source at `out` does not abort it. -/
theorem missing_suffixed_file_single_write (h : Header) (env : Env) (V : CidType)
    (base : List Nat)
    (hV : classified h env = some V) (hne : V ≠ CidType.NONE)
    (hbase : h.WIFI_DRIVER_NVRAM_PATH = some base)
    (hwrite : ∃ buf len, Event.write_base buf len len ∈ (main h env).trace)
    (hfit : (cstr base ++ [95] ++ vendor_name V).length ≤ 1023)
    (hmissing : env.file_exists (cstr base ++ [95] ++ vendor_name V) = false) :
    ((main h env).aborted = false → (main h env).ret = 0) ∧
    (main h env).trace.filter is_driver_write =
      [Event.write_base (cstr base ++ [0]) ((strlen base : Int) + 1)
        ((strlen base : Int) + 1)] := by
  have hst := stat_suffixed_missing env base V hfit hmissing
  revert hwrite
  rcases main_cases h env with ⟨hc, _⟩ | ⟨hc, _⟩ | ⟨hc, _⟩ | ⟨t, hc, _, he⟩
  · rw [hV] at hc
    cases hc
  · rw [hV] at hc
    cases hc
  · rw [hV] at hc
    injection hc with hc
    exact absurd hc hne
  · rw [hV] at hc
    injection hc with hc
    subst hc
    rw [he]
    rcases main_provision_cases h env (vendor_name V) (w_read env) with
      ⟨h1, hp⟩ | ⟨h1, h2, hp⟩ | ⟨h1, h2, h3, hp⟩ | ⟨h1, h2, h3, h4, hp⟩ |
      ⟨pwd, h1, h2, h3, h4, h5, hp⟩ | ⟨pwd, h1, h2, h3, h4, h5, h6, hp⟩ |
      ⟨pwd, nv, h1, h2, h3, h4, h5, h6, hp⟩
    · rw [hp]
      simp [World.log, w_read]
    · rw [hp]
      simp [World.log, w_read, step_write, fopen_w, fputs]
    · rw [hp]
      simp [World.log, w_read, step_mode, step_write, fopen_w, fputs, fchmod]
    · rw [hp]
      simp [World.log, w_read, step_lookup, step_mode, step_write, fopen_w, fputs,
        fchmod]
    · rw [hp]
      simp [World.log, w_read, step_own, step_lookup, step_mode, step_write,
        fopen_w, fputs, fchmod, fchown]
    · rw [hp]
      simp [World.log, w_read, step_own, step_lookup, step_mode, step_write,
        fopen_w, fputs, fchmod, fchown]
    · rw [hp]
      rw [hbase] at h6
      injection h6 with h6
      subst h6
      rcases wifi_cases env base (vendor_name V)
          (step_own env (vendor_name V) pwd (w_read env))
        with ⟨w1, hw⟩ | ⟨w1, w2, hw⟩ | ⟨fd, w1, w2, w3, hw⟩ | ⟨fd, w1, w2, w3, w4, hw⟩ |
          ⟨fd, w1, w2, w3, w4, hw⟩
      · rw [hw]
        simp [World.log, w_read, step_own, step_lookup, step_mode, step_write,
          fopen_w, fputs, fchmod, fchown, wifi_stat]
      · rw [hw]
        simp [World.log, w_read, step_own, step_lookup, step_mode, step_write,
          fopen_w, fputs, fchmod, fchown, wifi_stat, wifi_open]
      · rw [hw]
        simp [World.log, w_read, step_own, step_lookup, step_mode, step_write,
          fopen_w, fputs, fchmod, fchown, wifi_stat, wifi_open, wifi_write]
        intro hr
        exact (w3 hr.symm).elim
      · rw [hw]
        intro _
        simp +contextual [World.log, w_read, step_own, step_lookup, step_mode,
          step_write, fopen_w, fputs, fchmod, fchown, wifi_stat, wifi_open, wifi_write,
          wifi_stat_suffixed, is_driver_write, List.filter, w3]
      · exact absurd w4 hst

/-- C6, amended, at the example run: the base calibration file exists, `basePath_wisol` does
not; the run exits 0 after one write, of the base path with its terminating NUL. -/
theorem missing_suffixed_file_single_write_witness :
    (main hdr_nvram env_ok).ret = 0 ∧
    (main hdr_nvram env_ok).trace.filter is_driver_write =
      [Event.write_base (cstr (bytes "/system/etc/wifi/nvram_net.txt") ++ [0])
        ((strlen (bytes "/system/etc/wifi/nvram_net.txt") : Int) + 1)
        ((strlen (bytes "/system/etc/wifi/nvram_net.txt") : Int) + 1)] :=
  have hw := missing_suffixed_file_single_write hdr_nvram env_ok CidType.WISOL
    (bytes "/system/etc/wifi/nvram_net.txt") (by decide) (by decide) rfl
    ⟨cstr (bytes "/system/etc/wifi/nvram_net.txt") ++ [0], 31, by decide⟩
    (by decide) (by decide)
  ⟨hw.1 (by decide), hw.2⟩

/-- C7 as stated fails: a run returns a nonzero status although none of the six enumerated
failures occurs and the run is not aborted by the second close of the MAC source; the `stat`
of the configured base calibration file fails. -/
theorem missing_base_file_exit_nonzero :
    (main hdr_nvram env_no_base_file).aborted = false ∧
    (main hdr_nvram env_no_base_file).ret ≠ 0 ∧
    (∀ e ∈ (main hdr_nvram env_no_base_file).trace, fatal_failure e = false) ∧
    Event.stat_base (bytes "/system/etc/wifi/nvram_net.txt") (-1) ∈
      (main hdr_nvram env_no_base_file).trace := by
  decide

/-- C7, amended: in every run in which `fputs` does not return a positive value and the second
`fclose` of the MAC source at `out` does not abort the run, the run returns a nonzero status
if and only if one of the six enumerated failures occurs (the MAC
source cannot be opened or read, the CID file cannot be opened or written, `fchmod` fails,
the `system` account is not found, `fchown` fails, the driver control path cannot be opened
or the base calibration path is not written in full) or the `stat` of the configured base
calibration file fails.  In every other case, among them no vendor match, a missing
vendor-suffixed calibration file and a failed write of the vendor-suffixed path, the run
returns 0. -/
theorem exit_nonzero_iff_fatal (h : Header) (env : Env)
    (hput : ∀ e ∈ (main h env).trace, cid_write_positive e = false)
    (hrun : (main h env).aborted = false) :
    (main h env).ret ≠ 0 ↔
      ∃ e ∈ (main h env).trace, fatal_failure e = true ∨ base_stat_failed e = true := by
  revert hput
  rcases main_cases h env with ⟨_, _, he⟩ | ⟨_, _, he⟩ | ⟨_, he⟩ | ⟨t, _, _, he⟩
  · rw [he]
    simp [World.log, fatal_failure]
  · rw [he] at hrun ⊢
    have hb : env.reclose_aborts = false := by simpa using hrun
    simp [World.log, fatal_failure, hb]
  · rw [he] at hrun ⊢
    have hb : env.reclose_aborts = false := by simpa using hrun
    simp [World.log, remove, w_read, fatal_failure, base_stat_failed, hb]
  · rw [he] at hrun ⊢
    rcases main_provision_cases h env (vendor_name t) (w_read env) with
      ⟨h1, hp⟩ | ⟨h1, h2, hp⟩ | ⟨h1, h2, h3, hp⟩ | ⟨h1, h2, h3, h4, hp⟩ |
      ⟨pwd, h1, h2, h3, h4, h5, hp⟩ | ⟨pwd, h1, h2, h3, h4, h5, h6, hp⟩ |
      ⟨pwd, nv, h1, h2, h3, h4, h5, h6, hp⟩
    · rw [hp] at hrun ⊢
      have hb : env.reclose_aborts = false := by simpa using hrun
      simp [hb, main_out, World.log, w_read, fatal_failure, base_stat_failed]
    · rw [hp] at hrun ⊢
      have hb : env.reclose_aborts = false := by simpa using hrun
      simp [hb, main_out, World.log, w_read, step_write, fopen_w, fputs, fatal_failure,
        base_stat_failed, cid_write_positive]
      omega
    · rw [hp] at hrun ⊢
      have hb : env.reclose_aborts = false := by simpa using hrun
      simp [hb, main_out, World.log, w_read, step_mode, step_write, fopen_w, fputs, fchmod,
        fatal_failure, base_stat_failed, cid_write_positive, h2, h3]
    · rw [hp] at hrun ⊢
      have hb : env.reclose_aborts = false := by simpa using hrun
      simp [hb, main_out, World.log, w_read, step_lookup, step_mode, step_write, fopen_w, fputs,
        fchmod, fatal_failure, base_stat_failed, cid_write_positive, h2, h3, h4]
    · rw [hp] at hrun ⊢
      have hb : env.reclose_aborts = false := by simpa using hrun
      simp [hb, main_out, World.log, w_read, step_own, step_lookup, step_mode, step_write,
        fopen_w, fputs, fchmod, fchown, fatal_failure, base_stat_failed, cid_write_positive,
        h2, h3, h4, h5]
    · rw [hp] at hrun ⊢
      have hb : env.reclose_aborts = false := by simpa using hrun
      simp [hb, main_out, World.log, w_read, step_own, step_lookup, step_mode, step_write,
        fopen_w, fputs, fchmod, fchown, fatal_failure, base_stat_failed, cid_write_positive,
        h2, h3, h4, h5]
    · rw [hp] at hrun ⊢
      rcases wifi_cases env nv (vendor_name t) (step_own env (vendor_name t) pwd (w_read env))
        with ⟨w1, hw⟩ | ⟨w1, w2, hw⟩ | ⟨fd, w1, w2, w3, hw⟩ | ⟨fd, w1, w2, w3, w4, hw⟩ |
          ⟨fd, w1, w2, w3, w4, hw⟩
      · rw [hw] at hrun ⊢
        have hb : env.reclose_aborts = false := by simpa using hrun
        simp [hb, main_out, World.log, w_read, step_own, step_lookup, step_mode, step_write,
          fopen_w, fputs, fchmod, fchown, fatal_failure, base_stat_failed, cid_write_positive,
          wifi_stat, h2, h3, h4, h5, w1]
      · rw [hw] at hrun ⊢
        have hb : env.reclose_aborts = false := by simpa using hrun
        simp [hb, main_out, World.log, w_read, step_own, step_lookup, step_mode, step_write,
          fopen_w, fputs, fchmod, fchown, fatal_failure, base_stat_failed, cid_write_positive,
          wifi_stat, wifi_open, h2, h3, h4, h5, w1]
      · rw [hw] at hrun ⊢
        have hb : env.reclose_aborts = false := by simpa using hrun
        simp [hb, main_out, World.log, w_read, step_own, step_lookup, step_mode, step_write,
          fopen_w, fputs, fchmod, fchown, fatal_failure, base_stat_failed, cid_write_positive,
          wifi_stat, wifi_open, wifi_write, h2, h3, h4, h5, w1, w3]
      · rw [hw] at hrun ⊢
        have hb : env.reclose_aborts = false := by simpa using hrun
        simp [hb, main_out, World.log, w_read, step_own, step_lookup, step_mode, step_write,
          fopen_w, fputs, fchmod, fchown, fatal_failure, base_stat_failed, cid_write_positive,
          wifi_stat, wifi_open, wifi_write, wifi_stat_suffixed, h2, h3, h4, h5, w1, w3]
      · rw [hw] at hrun ⊢
        have hb : env.reclose_aborts = false := by simpa using hrun
        simp [hb, main_out, World.log, w_read, step_own, step_lookup, step_mode, step_write,
          fopen_w, fputs, fchmod, fchown, fatal_failure, base_stat_failed, cid_write_positive,
          wifi_stat, wifi_open, wifi_write, wifi_stat_suffixed, wifi_write_suffixed,
          h2, h3, h4, h5, w1, w3]

/-- C7, amended, at two runs: the run in which every call succeeds returns 0 and has no
failure; the run without the base calibration file returns nonzero and has one. -/
theorem exit_nonzero_iff_fatal_witness :
    ((main hdr_nvram env_ok).ret ≠ 0 ↔
      ∃ e ∈ (main hdr_nvram env_ok).trace,
        fatal_failure e = true ∨ base_stat_failed e = true) ∧
    (main hdr_nvram env_ok).ret = 0 ∧
    ((main hdr_nvram env_no_base_file).ret ≠ 0 ↔
      ∃ e ∈ (main hdr_nvram env_no_base_file).trace,
        fatal_failure e = true ∨ base_stat_failed e = true) ∧
    (main hdr_nvram env_no_base_file).ret = -1 :=
  ⟨exit_nonzero_iff_fatal hdr_nvram env_ok (by decide) (by decide), by decide,
   exit_nonzero_iff_fatal hdr_nvram env_no_base_file (by decide) (by decide), by decide⟩

/-- C9 as stated fails: with the base calibration path configured as the empty string, a run
that classified to WISOL and completed the write, chmod and chown of the CID file returns a
nonzero status, without being aborted by the second close of the MAC source. -/
theorem empty_base_path_exit_nonzero :
    hdr_empty_path.WIFI_DRIVER_NVRAM_PATH = some [] ∧
    classified hdr_empty_path env_ok = some CidType.WISOL ∧
    Event.fchown_cid 1000 1000 0 ∈ (main hdr_empty_path env_ok).trace ∧
    (main hdr_empty_path env_ok).aborted = false ∧
    (main hdr_empty_path env_ok).ret ≠ 0 := by
  decide

/-- C9, amended: in a run that has classified to a vendor and completed the write, chmod and
chown of the CID file, when the base calibration path is absent (`NULL`) the run makes no
attempt to open or write the driver control interface, and exits 0 when the second `fclose`
of the MAC source at `out` does not abort it; when the path is the empty string the run makes
no such attempt either, but exits with a nonzero status, because the `stat` of the empty
path fails. -/
theorem unconfigured_base_path_skips_driver (h : Header) (env : Env)
    (hown : ∃ uid gid, Event.fchown_cid uid gid 0 ∈ (main h env).trace) :
    (h.WIFI_DRIVER_NVRAM_PATH = none →
      ((main h env).aborted = false → (main h env).ret = 0) ∧
      ∀ e ∈ (main h env).trace, touches_driver e = false) ∧
    (∀ nv, h.WIFI_DRIVER_NVRAM_PATH = some nv → cstr nv = [] →
      (main h env).ret ≠ 0 ∧ ∀ e ∈ (main h env).trace, touches_driver e = false) := by
  revert hown
  rcases main_cases h env with ⟨_, _, he⟩ | ⟨_, _, he⟩ | ⟨_, he⟩ | ⟨t, _, _, he⟩
  · rw [he]
    simp [World.log]
  · rw [he]
    simp [World.log]
  · rw [he]
    simp [World.log, remove, w_read]
  · rw [he]
    rcases main_provision_cases h env (vendor_name t) (w_read env) with
      ⟨h1, hp⟩ | ⟨h1, h2, hp⟩ | ⟨h1, h2, h3, hp⟩ | ⟨h1, h2, h3, h4, hp⟩ |
      ⟨pwd, h1, h2, h3, h4, h5, hp⟩ | ⟨pwd, h1, h2, h3, h4, h5, h6, hp⟩ |
      ⟨pwd, nv, h1, h2, h3, h4, h5, h6, hp⟩
    · rw [hp]
      simp [World.log, w_read]
    · rw [hp]
      simp [World.log, w_read, step_write, fopen_w, fputs]
    · rw [hp]
      simp [World.log, w_read, step_mode, step_write, fopen_w, fputs, fchmod]
    · rw [hp]
      simp [World.log, w_read, step_lookup, step_mode, step_write, fopen_w, fputs,
        fchmod]
    · rw [hp]
      simp [World.log, w_read, step_own, step_lookup, step_mode, step_write,
        fopen_w, fputs, fchmod, fchown]
      intro hz
      exact absurd hz.symm h5
    · rw [hp]
      simp +contextual [World.log, w_read, step_own, step_lookup, step_mode,
        step_write, fopen_w, fputs, fchmod, fchown, touches_driver, h6]
    · rw [hp]
      intro _
      refine ⟨fun hn => ?_, fun nv' hnv' he' => ?_⟩
      · rw [h6] at hn
        cases hn
      · rw [h6] at hnv'
        injection hnv' with hnv'
        subst hnv'
        rcases wifi_cases env nv (vendor_name t)
            (step_own env (vendor_name t) pwd (w_read env))
          with ⟨w1, hw⟩ | ⟨w1, _⟩ | ⟨fd, w1, _⟩ | ⟨fd, w1, _⟩ | ⟨fd, w1, _⟩
        · rw [hw]
          cases hb : env.reclose_aborts <;>
            simp [World.log, w_read, step_own, step_lookup, step_mode, step_write,
              fopen_w, fputs, fchmod, fchown, wifi_stat, touches_driver, hb, ABORT_STATUS]
        all_goals exact absurd w1 (stat_empty env nv he')

/-- C9, amended, at the example run with no base calibration path and with the empty one. -/
theorem unconfigured_base_path_skips_driver_witness :
    ((main hdr_wisol env_ok).ret = 0 ∧
      ∀ e ∈ (main hdr_wisol env_ok).trace, touches_driver e = false) ∧
    ((main hdr_empty_path env_ok).ret ≠ 0 ∧
      ∀ e ∈ (main hdr_empty_path env_ok).trace, touches_driver e = false) :=
  have hn := (unconfigured_base_path_skips_driver hdr_wisol env_ok
    ⟨1000, 1000, by decide⟩).1 rfl
  ⟨⟨hn.1 (by decide), hn.2⟩,
   (unconfigured_base_path_skips_driver hdr_empty_path env_ok ⟨1000, 1000, by decide⟩).2
     [] rfl rfl⟩

/-! ## C8: the file handles -/

/-- C8 fails on the code: in every run that opens the MAC source file, `fclose` is called
on it twice, once after `fgets` and once more at the label `out`, where `file` still holds
the closed handle.  The CID file and the driver control descriptor are closed once for each
successful open. -/
theorem source_closed_twice (h : Header) (env : Env) (hopen : env.macaddr_file ≠ none) :
    ((main h env).trace.filter closes_source).length = 2 ∧
    ((main h env).trace.filter closes_cid).length =
      ((main h env).trace.filter cid_opened).length ∧
    ((main h env).trace.filter closes_driver).length =
      ((main h env).trace.filter driver_opened).length := by
  rcases main_cases h env with ⟨_, hc, _⟩ | ⟨_, _, he⟩ | ⟨_, he⟩ | ⟨t, _, _, he⟩
  · exact absurd hc hopen
  · rw [he]
    simp [World.log, driver_opened, closes_source, closes_cid, cid_opened,
      closes_driver]
  · rw [he]
    simp [World.log, remove, w_read, driver_opened, closes_source, closes_cid,
      cid_opened, closes_driver]
  · rw [he]
    rcases main_provision_cases h env (vendor_name t) (w_read env) with
      ⟨h1, hp⟩ | ⟨h1, h2, hp⟩ | ⟨h1, h2, h3, hp⟩ | ⟨h1, h2, h3, h4, hp⟩ |
      ⟨pwd, h1, h2, h3, h4, h5, hp⟩ | ⟨pwd, h1, h2, h3, h4, h5, h6, hp⟩ |
      ⟨pwd, nv, h1, h2, h3, h4, h5, h6, hp⟩
    · rw [hp]
      simp [World.log, w_read, driver_opened, closes_source, closes_cid,
        cid_opened, closes_driver]
    · rw [hp]
      simp [World.log, w_read, step_write, fopen_w, fputs, driver_opened,
        closes_source, closes_cid, cid_opened, closes_driver]
    · rw [hp]
      simp [World.log, w_read, step_mode, step_write, fopen_w, fputs, fchmod,
        driver_opened, closes_source, closes_cid, cid_opened, closes_driver]
    · rw [hp]
      simp [World.log, w_read, step_lookup, step_mode, step_write, fopen_w, fputs,
        fchmod, driver_opened, closes_source, closes_cid, cid_opened, closes_driver]
    · rw [hp]
      simp [World.log, w_read, step_own, step_lookup, step_mode, step_write,
        fopen_w, fputs, fchmod, fchown, driver_opened, closes_source, closes_cid, cid_opened,
        closes_driver]
    · rw [hp]
      simp [World.log, w_read, step_own, step_lookup, step_mode, step_write,
        fopen_w, fputs, fchmod, fchown, driver_opened, closes_source, closes_cid, cid_opened,
        closes_driver]
    · rw [hp]
      rcases wifi_cases env nv (vendor_name t) (step_own env (vendor_name t) pwd (w_read env))
        with ⟨w1, hw⟩ | ⟨w1, w2, hw⟩ | ⟨fd, w1, w2, w3, hw⟩ | ⟨fd, w1, w2, w3, w4, hw⟩ |
          ⟨fd, w1, w2, w3, w4, hw⟩
      · rw [hw]
        simp [World.log, w_read, step_own, step_lookup, step_mode, step_write,
          fopen_w, fputs, fchmod, fchown, wifi_stat, driver_opened, closes_source,
          closes_cid, cid_opened, closes_driver]
      · rw [hw]
        simp [World.log, w_read, step_own, step_lookup, step_mode, step_write,
          fopen_w, fputs, fchmod, fchown, wifi_stat, wifi_open, driver_opened,
          closes_source, closes_cid, cid_opened, closes_driver]
      · rw [hw]
        simp [World.log, w_read, step_own, step_lookup, step_mode, step_write,
          fopen_w, fputs, fchmod, fchown, wifi_stat, wifi_open, wifi_write, driver_opened,
          closes_source, closes_cid, cid_opened, closes_driver]
      · rw [hw]
        simp [World.log, w_read, step_own, step_lookup, step_mode, step_write,
          fopen_w, fputs, fchmod, fchown, wifi_stat, wifi_open, wifi_write,
          wifi_stat_suffixed, driver_opened, closes_source, closes_cid, cid_opened,
          closes_driver]
      · rw [hw]
        simp [World.log, w_read, step_own, step_lookup, step_mode, step_write,
          fopen_w, fputs, fchmod, fchown, wifi_stat, wifi_open, wifi_write,
          wifi_stat_suffixed, wifi_write_suffixed, driver_opened, closes_source, closes_cid,
          cid_opened, closes_driver]

/-- C8 at the example run, in which every call succeeds: the MAC source is opened once and
closed twice. -/
theorem source_closed_twice_witness :
    ((main hdr_nvram env_ok).trace.filter (fun e => e == Event.fopen_mac true)).length = 1 ∧
    ((main hdr_nvram env_ok).trace.filter closes_source).length = 2 :=
  ⟨by decide, (source_closed_twice hdr_nvram env_ok (by decide)).1⟩

/-! ## C10: the string passed to the classifier -/

/-- C10 as stated fails: from a MAC source whose first line is `a`, `b`, NUL, `c`, `d`,
newline, the read succeeds and the string passed to the classifier is "ab", not the six
bytes of the line. -/
theorem nul_byte_cuts_mac_addr_half :
    (read_mac_addr_half hdr_wisol source_with_nul false).map cstr = some [97, 98] ∧
    (first_line source_with_nul).take (hdr_wisol.RANGE_ENTRY_LEN - 1) =
      [97, 98, 0, 99, 100, 10] := by
  decide

/-- C10, amended: for every content of the MAC source file from which the read succeeds, the
array that `main` passes to `classify_macaddr_half` has RANGE_ENTRY_LEN + 1 bytes, holds a
NUL at the index of its string length, and that length is at most RANGE_ENTRY_LEN - 1.  The
string is the first RANGE_ENTRY_LEN - 1 bytes of the file's first line (the whole line with
its newline when the line is shorter), cut before the first NUL byte among them; it is
exactly those bytes when none of them is NUL. -/
theorem mac_addr_half_terminated (h : Header) (content : List Nat) (error : Bool)
    (buf : List Nat) (hread : read_mac_addr_half h content error = some buf) :
    buf.length = h.RANGE_ENTRY_LEN + 1 ∧
    strlen buf ≤ h.RANGE_ENTRY_LEN - 1 ∧
    buf.getD (strlen buf) 1 = 0 ∧
    cstr buf = cstr ((first_line content).take (h.RANGE_ENTRY_LEN - 1)) ∧
    ((∀ c ∈ (first_line content).take (h.RANGE_ENTRY_LEN - 1), c ≠ 0) →
      cstr buf = (first_line content).take (h.RANGE_ENTRY_LEN - 1)) := by
  unfold read_mac_addr_half fgets at hread
  by_cases h0 : h.RANGE_ENTRY_LEN = 0 ∨ error = true
  · simp [h0] at hread
  · rw [if_neg h0] at hread
    by_cases h1 : 1 < h.RANGE_ENTRY_LEN ∧ content = []
    · simp [h1] at hread
    · rw [if_neg h1] at hread
      simp only [Option.map_some', Option.some.injEq] at hread
      rw [read_line_eq] at hread
      have hn : 1 ≤ h.RANGE_ENTRY_LEN := by omega
      have hlen : ((first_line content).take (h.RANGE_ENTRY_LEN - 1)).length ≤
          h.RANGE_ENTRY_LEN - 1 := by
        rw [List.length_take]
        exact Nat.min_le_left _ _
      have hc : cstr buf = cstr ((first_line content).take (h.RANGE_ENTRY_LEN - 1)) := by
        rw [← hread, cstr_append_zeros]
      have hbl : buf.length = h.RANGE_ENTRY_LEN + 1 := by
        rw [← hread, List.length_append, List.length_replicate]
        omega
      have hsl : strlen buf ≤ h.RANGE_ENTRY_LEN - 1 := by
        unfold strlen
        rw [hc]
        exact le_trans (cstr_length_le _) hlen
      refine ⟨hbl, hsl, ?_, hc, ?_⟩
      · apply cstr_terminated
        unfold strlen at hsl
        omega
      · intro hz
        rw [hc, cstr_of_no_nul _ hz]

/-- C10, amended, at a MAC source holding "aa:bb:cc" and a newline, with RANGE_ENTRY_LEN 9:
the array has 10 bytes and the string passed is "aa:bb:cc", the first 8 bytes of the line. -/
theorem mac_addr_half_terminated_witness :
    read_mac_addr_half hdr_wisol (bytes "aa:bb:cc\n") false =
      some (bytes "aa:bb:cc" ++ [0, 0]) ∧
    (bytes "aa:bb:cc" ++ [0, 0]).length = 10 ∧
    strlen (bytes "aa:bb:cc" ++ [0, 0]) ≤ 8 ∧
    cstr (bytes "aa:bb:cc" ++ [0, 0]) = bytes "aa:bb:cc" :=
  have hw := mac_addr_half_terminated hdr_wisol (bytes "aa:bb:cc\n") false
    (bytes "aa:bb:cc" ++ [0, 0]) (by decide)
  ⟨by decide, hw.1, hw.2.1, by decide⟩

end Macloader
